import Mathlib

set_option maxHeartbeats 1000000

/- Verification development for the high-precision curve plotter in
src/celengine/curveplot.cpp (classes HighPrec_Frustum, HighPrec_VertexBuffer,
HighPrec_RenderContext and CurvePlot).

Modelling conventions:
* C++ doubles are modelled by exact rationals wherever the code is purely
  algebraic (+, -, *, /, abs, min, max, comparisons), so every operation of
  the render path is executable and decidable.  The single square root in the
  code (Eigen `.norm()` inside CurvePlot::addSample) is modelled in ℝ on top
  of the executable rational squared norm.
* The sample record CurvePlotSample is declared in curveplot.h, which is not
  part of this excerpt; its fields (t, position, velocity, boundingRadius) are
  reconstructed from their uses in curveplot.cpp.  The record is parametric in
  the type of the boundingRadius field: the store built by addSample carries
  the real (square-root) radius, while the render entry points treat the
  stored radius as opaque input data and are therefore modelled over rational
  radii to stay executable.
* The vertex buffer keeps each logical vertex once (the C++ code duplicates
  every logical vertex into two slots whose scales are -s and +s with
  s = 0.5; we keep position, color and the base scale s).  `data` models the
  live prefix of the C++ array up to `currentPosition`.  Draw submissions
  (glDrawArrays calls issued by flush) are accumulated in the ghost field
  `drawn` as the list of positions of each submitted strip.
* The recursive renderer emits vertices through an operation trace (VBOp);
  the callers apply the trace to the vertex buffer state.  The renderer never
  reads the buffer state in the C++ code, so this factoring is exact.
* Recursion of renderCubic is not structurally bounded in the C++ code; the
  model uses explicit fuel and returns none when the fuel runs out.  -/

structure V3 (K : Type) where
  x : K
  y : K
  z : K
deriving DecidableEq

structure V4 (K : Type) where
  x : K
  y : K
  z : K
  w : K
deriving DecidableEq

structure M4 (K : Type) where
  c0 : V4 K
  c1 : V4 K
  c2 : V4 K
  c3 : V4 K
deriving DecidableEq

variable {K : Type} [LinearOrderedField K]

def add4 (a b : V4 K) : V4 K := ⟨a.x + b.x, a.y + b.y, a.z + b.z, a.w + b.w⟩

def sub4 (a b : V4 K) : V4 K := ⟨a.x - b.x, a.y - b.y, a.z - b.z, a.w - b.w⟩

def smul4 (c : K) (a : V4 K) : V4 K := ⟨c * a.x, c * a.y, c * a.z, c * a.w⟩

def abs4 (a : V4 K) : V4 K := ⟨|a.x|, |a.y|, |a.z|, |a.w|⟩

def dot4 (a b : V4 K) : K := a.x * b.x + a.y * b.y + a.z * b.z + a.w * b.w

def normSq4 (a : V4 K) : K := a.x ^ 2 + a.y ^ 2 + a.z ^ 2 + a.w ^ 2

def dot3 (a b : V3 K) : K := a.x * b.x + a.y * b.y + a.z * b.z

def normSq3 (a : V3 K) : K := a.x ^ 2 + a.y ^ 2 + a.z ^ 2

def sub3 (a b : V3 K) : V3 K := ⟨a.x - b.x, a.y - b.y, a.z - b.z⟩

def smul3 (c : K) (a : V3 K) : V3 K := ⟨c * a.x, c * a.y, c * a.z⟩

def distSq3 (a b : V3 K) : K := normSq3 (sub3 a b)

/-- `zeroExtend` from curveplot.cpp: convert a 3-vector to a 4-vector by
adding a zero. -/
def zeroExtend (v : V3 K) : V4 K := ⟨v.x, v.y, v.z, 0⟩

def head3 (v : V4 K) : V3 K := ⟨v.x, v.y, v.z⟩

/-- Column-major matrix-vector product (Eigen `coeff * vec`). -/
def mulVec4 (m : M4 K) (v : V4 K) : V4 K :=
  add4 (add4 (smul4 v.x m.c0) (smul4 v.y m.c1)) (add4 (smul4 v.z m.c2) (smul4 v.w m.c3))

def cwiseAbsM (m : M4 K) : M4 K := ⟨abs4 m.c0, abs4 m.c1, abs4 m.c2, abs4 m.c3⟩

/-- `HighPrec_Frustum`: near/far z and the four zero-extended side plane
normals, exactly as stored by the constructor. -/
structure Frustum where
  nearZ : ℚ
  farZ : ℚ
  m0 : V4 ℚ
  m1 : V4 ℚ
  m2 : V4 ℚ
  m3 : V4 ℚ
deriving DecidableEq

/-- The `HighPrec_Frustum` constructor: stores nearZ, farZ and zero-extends
the four plane normals. -/
def mkFrustum (nearZ farZ : ℚ) (n0 n1 n2 n3 : V3 ℚ) : Frustum :=
  ⟨nearZ, farZ, zeroExtend n0, zeroExtend n1, zeroExtend n2, zeroExtend n3⟩

/-- `HighPrec_Frustum::cullSphere` (Vector3d overload, curveplot.cpp lines
91-100): the center is dotted with the first three components of each stored
plane normal. -/
def cullSphere3 (f : Frustum) (center : V3 ℚ) (radius : ℚ) : Bool :=
  decide (f.nearZ < center.z - radius) ||
  decide (center.z + radius < f.farZ) ||
  decide (dot3 center (head3 f.m0) < -radius) ||
  decide (dot3 center (head3 f.m1) < -radius) ||
  decide (dot3 center (head3 f.m2) < -radius) ||
  decide (dot3 center (head3 f.m3) < -radius)

/-- `HighPrec_Frustum::cullSphere` (Vector4d overload, curveplot.cpp lines
102-111). -/
def cullSphere4 (f : Frustum) (center : V4 ℚ) (radius : ℚ) : Bool :=
  decide (f.nearZ < center.z - radius) ||
  decide (center.z + radius < f.farZ) ||
  decide (dot4 center f.m0 < -radius) ||
  decide (dot4 center f.m1 < -radius) ||
  decide (dot4 center f.m2 < -radius) ||
  decide (dot4 center f.m3 < -radius)

/-- `cubicHermiteCoefficients` (curveplot.cpp lines 123-136). -/
def cubicHermiteCoefficients (p0 p1 v0 v1 : V4 K) : M4 K :=
  ⟨p0, v0,
   sub4 (smul4 3 (sub4 p1 p0)) (add4 (smul4 2 v0) v1),
   add4 (smul4 2 (sub4 p0 p1)) (add4 v1 v0)⟩

/-- Evaluation of the cubic: `coeff * Vector4d(1, t, t*t, t*t*t)`. -/
def evalCubic (m : M4 K) (t : K) : V4 K := mulVec4 m ⟨1, t, t * t, t * t * t⟩

/-- The extents vector of addSample: `coeff.cwiseAbs() * Vector4d(0,1,1,1)`. -/
def hermiteExtents (m : M4 K) : V4 K := mulVec4 (cwiseAbsM m) ⟨0, 1, 1, 1⟩

/-- One logical vertex of `HighPrec_VertexBuffer` (the C++ code stores it as
two consecutive slots with scales -s and +s, s = 0.5; we keep the base scale
s). -/
structure LVertex where
  pos : V4 ℚ
  color : V4 ℚ
  scale : ℚ
deriving DecidableEq

def defaultLV : LVertex := ⟨⟨0, 0, 0, 0⟩, ⟨0, 0, 0, 0⟩, 0⟩

/-- State of `HighPrec_VertexBuffer`.  `data` is the live prefix of the
vertex array (length = `currentPosition`); `drawn` is a ghost log of the draw
submissions issued by `flush` (one entry per submitted strip, positions
only). -/
structure VBState where
  capacity : ℕ
  data : List LVertex
  currentStripLength : ℕ
  stripLengths : List ℕ
  color : V4 ℚ
  lineAsTriangles : Bool
  drawn : List (List (V4 ℚ))
deriving DecidableEq

/-- The `HighPrec_VertexBuffer` constructor: capacity 4096, empty buffer. -/
def vbInit : VBState := ⟨4096, [], 0, [], ⟨0, 0, 0, 0⟩, false, []⟩

/-- `HighPrec_VertexBuffer::setup`: clears strip lengths and cursors and
records the output layout (the GL attribute plumbing is not modelled). -/
def vbSetup (vb : VBState) (lineAsTriangles : Bool) : VBState :=
  { vb with stripLengths := [], currentStripLength := 0, data := [],
            lineAsTriangles := lineAsTriangles }

def vbSetColor (vb : VBState) (c : V4 ℚ) : VBState := { vb with color := c }

/-- The body of `HighPrec_VertexBuffer::end` before its trailing flush check
(curveplot.cpp lines 296-318).  For a strip of more than one vertex it
appends an extra point carrying the position of the second-to-last vertex
(only the position is written by the code; the other fields of that slot are
unspecified and modelled as defaults), inverts the scale signs of the last
vertex and records the strip length.  Otherwise it abandons the strip by
rolling the cursor back. -/
def vbEndCore (vb : VBState) : VBState :=
  if 1 < vb.currentStripLength then
    let n := vb.data.length
    let lastV := vb.data.getD (n - 1) defaultLV
    let secondLast := vb.data.getD (n - 2) defaultLV
    { vb with
      data := (vb.data.set (n - 1) { lastV with scale := -lastV.scale }) ++
              [{ defaultLV with pos := secondLast.pos }],
      stripLengths := vb.stripLengths ++ [vb.currentStripLength],
      currentStripLength := 0 }
  else
    { vb with data := vb.data.take (vb.data.length - vb.currentStripLength),
              currentStripLength := 0 }

/-- The draw loop of `flush`: for each recorded strip length L, submit L
vertices starting at the running start index, then skip the extra direction
point (startIndex += L + 1). -/
def extractStrips : List LVertex → List ℕ → List (List (V4 ℚ))
  | _, [] => []
  | d, L :: rest => (d.take L).map LVertex.pos :: extractStrips (d.drop (L + 1)) rest

/-- `HighPrec_VertexBuffer::flush` (curveplot.cpp lines 326-353). -/
def vbFlush (vb : VBState) (endIfNeeded : Bool) : VBState :=
  if 0 < vb.data.length then
    let vb1 := if endIfNeeded = true ∧ 1 < vb.currentStripLength then vbEndCore vb else vb
    { vb1 with drawn := vb1.drawn ++ extractStrips vb1.data vb1.stripLengths,
               data := [], stripLengths := [], currentStripLength := 0 }
  else
    { vb with currentStripLength := 0 }

/-- `HighPrec_VertexBuffer::end` (with its trailing conditional flush). -/
def vbEnd (vb : VBState) (flushIfNeeded : Bool) : VBState :=
  let vb1 := vbEndCore vb
  if flushIfNeeded = true ∧ vb1.data.length = vb1.capacity then vbFlush vb1 false else vb1

/-- `HighPrec_VertexBuffer::vertex` (four-component overload with explicit
color, curveplot.cpp lines 257-287): append the vertex; on reaching capacity,
flush and re-seed the buffer with the just-emitted vertex. -/
def vbVertex (vb : VBState) (p : V4 ℚ) (c : V4 ℚ) : VBState :=
  let d := vb.data ++ [⟨p, c, 1 / 2⟩]
  let vb1 := { vb with data := d, currentStripLength := vb.currentStripLength + 1 }
  if d.length = vb.capacity then
    let vb2 := vbFlush vb1 true
    { vb2 with data := [⟨p, c, 1 / 2⟩], currentStripLength := 1 }
  else vb1

/-- `vertex(v)` without explicit color uses the buffer's current color. -/
def vbVertexC (vb : VBState) (p : V4 ℚ) : VBState := vbVertex vb p vb.color

/-- `begin()` is pure bookkeeping in buffered mode (glBegin is only used on
the non-buffered debug path). -/
def vbBegin (vb : VBState) : VBState := vb

/-- `finish()` only releases GL binding state; no buffer-state effect. -/
def vbFinish (vb : VBState) : VBState := vb

/-- Emitter operations produced by the recursive renderer.  `emit p none`
is `vertex(p)` (buffer color); `emit p (some c)` is `vertex(p, c)`. -/
inductive VBOp where
  | stripBegin : VBOp
  | emit : V4 ℚ → Option (V4 ℚ) → VBOp
  | stripEnd : VBOp
deriving DecidableEq

def applyOp (vb : VBState) : VBOp → VBState
  | .stripBegin => vbBegin vb
  | .emit p c => vbVertex vb p (c.getD vb.color)
  | .stripEnd => vbEnd vb true

def applyOps (vb : VBState) (ops : List VBOp) : VBState := ops.foldl applyOp vb

/-- `SubdivisionFactor` (curveplot.cpp line 50). -/
def SubdivisionFactor : ℕ := 8

/-- `InvSubdivisionFactor` (curveplot.cpp line 51); 1/8 is exact in double
precision. -/
def invSubdivisionFactor : ℚ := 1 / (SubdivisionFactor : ℚ)

/-- The loop indices `i = 1 .. SubdivisionFactor` of renderCubic. -/
def subIndices : List ℕ := List.range' 1 SubdivisionFactor

/-- The `for (i = 1; i <= SubdivisionFactor; i++)` loop body of
`HighPrec_RenderContext::renderCubic` (curveplot.cpp lines 440-483),
parametrised by the recursive call (`recurse restart t0 t1 radius`).
Accumulates the emitter operations in `acc` and threads the restart flag. -/
def renderCubicLoop (recurse : Bool → ℚ → ℚ → ℚ → Option (Bool × List VBOp))
    (f : Frustum) (thr : ℚ) (coeff : M4 ℚ) (t0 dt segR : ℚ) :
    List ℕ → Bool → V4 ℚ → List VBOp → Option (Bool × List VBOp)
  | [], restart, _, acc => some (restart, acc)
  | i :: rest, restart, lastP, acc =>
    let t := t0 + dt * (i : ℚ)
    let p := evalCubic coeff t
    let minDistance := max (-f.nearZ) (|p.z| - segR)
    if thr * minDistance ≤ segR then
      if cullSphere4 f p segR then
        renderCubicLoop recurse f thr coeff t0 dt segR rest true p
          (if restart then acc else acc ++ [VBOp.stripEnd])
      else
        match recurse restart (t - dt) t segR with
        | none => none
        | some (restart', ops) =>
          renderCubicLoop recurse f thr coeff t0 dt segR rest restart' p (acc ++ ops)
    else
      renderCubicLoop recurse f thr coeff t0 dt segR rest false p
        (acc ++ (if restart then [VBOp.stripBegin, VBOp.emit lastP none] else []) ++
         [VBOp.emit p none])

/-- `HighPrec_RenderContext::renderCubic` (curveplot.cpp lines 421-486) with
explicit fuel; `none` means the fuel was exhausted. -/
def renderCubic (f : Frustum) (thr : ℚ) :
    ℕ → Bool → M4 ℚ → ℚ → ℚ → ℚ → Option (Bool × List VBOp)
  | 0, _, _, _, _, _ => none
  | fuel + 1, restart, coeff, t0, t1, r =>
    renderCubicLoop (fun rs a b rr => renderCubic f thr fuel rs coeff a b rr)
      f thr coeff t0 ((t1 - t0) * invSubdivisionFactor) (r * invSubdivisionFactor)
      subIndices restart (evalCubic coeff t0) []

/-- `std::clamp(x, 0.0, 1.0)`. -/
def clamp01 (x : ℚ) : ℚ := min (max x 0) 1

/-- `Vector4f(color.x, color.y, color.z, color.w * opacity)`. -/
def mulAlpha (c : V4 ℚ) (o : ℚ) : V4 ℚ := ⟨c.x, c.y, c.z, c.w * o⟩

/-- The loop body of `HighPrec_RenderContext::renderCubicFaded`
(curveplot.cpp lines 514-563). -/
def renderCubicFadedLoop (recurse : Bool → ℚ → ℚ → ℚ → Option (Bool × List VBOp))
    (f : Frustum) (thr : ℚ) (coeff : M4 ℚ) (color : V4 ℚ) (fadeStart fadeRate : ℚ)
    (t0 dt segR : ℚ) :
    List ℕ → Bool → V4 ℚ → ℚ → List VBOp → Option (Bool × List VBOp)
  | [], restart, _, _, acc => some (restart, acc)
  | i :: rest, restart, lastP, lastOpacity, acc =>
    let t := t0 + dt * (i : ℚ)
    let p := evalCubic coeff t
    let opacity := clamp01 ((t - fadeStart) * fadeRate)
    let minDistance := max (-f.nearZ) (|p.z| - segR)
    if thr * minDistance ≤ segR then
      if cullSphere4 f p segR then
        renderCubicFadedLoop recurse f thr coeff color fadeStart fadeRate t0 dt segR
          rest true p opacity (if restart then acc else acc ++ [VBOp.stripEnd])
      else
        match recurse restart (t - dt) t segR with
        | none => none
        | some (restart', ops) =>
          renderCubicFadedLoop recurse f thr coeff color fadeStart fadeRate t0 dt segR
            rest restart' p opacity (acc ++ ops)
    else
      renderCubicFadedLoop recurse f thr coeff color fadeStart fadeRate t0 dt segR
        rest false p opacity
        (acc ++ (if restart then
                   [VBOp.stripBegin, VBOp.emit lastP (some (mulAlpha color lastOpacity))]
                 else []) ++
         [VBOp.emit p (some (mulAlpha color opacity))])

/-- `HighPrec_RenderContext::renderCubicFaded` (curveplot.cpp lines 491-566)
with explicit fuel. -/
def renderCubicFaded (f : Frustum) (thr : ℚ) (color : V4 ℚ) (fadeStart fadeRate : ℚ) :
    ℕ → Bool → M4 ℚ → ℚ → ℚ → ℚ → Option (Bool × List VBOp)
  | 0, _, _, _, _, _ => none
  | fuel + 1, restart, coeff, t0, t1, r =>
    renderCubicFadedLoop
      (fun rs a b rr => renderCubicFaded f thr color fadeStart fadeRate fuel rs coeff a b rr)
      f thr coeff color fadeStart fadeRate
      t0 ((t1 - t0) * invSubdivisionFactor) (r * invSubdivisionFactor)
      subIndices restart (evalCubic coeff t0) (clamp01 ((t0 - fadeStart) * fadeRate)) []

/-- `CurvePlotSample` (declared in curveplot.h; fields reconstructed from
their uses in curveplot.cpp).  Parametric in the type of the boundingRadius
field: the store uses ℝ (the radius is a square root), the render entry
points read it as opaque data and use ℚ. -/
structure CurvePlotSample (R : Type) where
  t : ℚ
  position : V3 ℚ
  velocity : V3 ℚ
  boundingRadius : R
deriving DecidableEq

def defaultSampleQ : CurvePlotSample ℚ := ⟨0, ⟨0, 0, 0⟩, ⟨0, 0, 0⟩, 0⟩

def defaultSampleR : CurvePlotSample ℝ := ⟨0, ⟨0, 0, 0⟩, ⟨0, 0, 0⟩, 0⟩

/-- The squared bounding radius computed by `CurvePlot::addSample` for the
adjacent pair (a, b): squared L2 norm of `coeff.cwiseAbs() * (0,1,1,1)` for
the Hermite coefficients of (p0, p1, v0*dt, v1*dt). -/
def segmentBoundingRadiusSq {R : Type} (a b : CurvePlotSample R) : ℚ :=
  let dt := b.t - a.t
  normSq4 (hermiteExtents (cubicHermiteCoefficients
    (zeroExtend a.position) (zeroExtend b.position)
    (zeroExtend (smul3 dt a.velocity)) (zeroExtend (smul3 dt b.velocity))))

/-- The bounding radius stored by `CurvePlot::addSample`: `extents.norm()`
(curveplot.cpp lines 630-631 and 642-643). -/
noncomputable def segmentBoundingRadius {R : Type} (a b : CurvePlotSample R) : ℝ :=
  Real.sqrt ((segmentBoundingRadiusSq a b : ℚ) : ℝ)

/-- `CurvePlot::addSample` (curveplot.cpp lines 593-646).  The store is the
deque `m_samples` (front = head of the list).  A sample later than the back
is appended (and the new sample's bounding radius is recomputed); a sample
earlier than the front is prepended (and the old front's bounding radius is
recomputed); otherwise the sample is discarded. -/
noncomputable def addSample :
    List (CurvePlotSample ℝ) → CurvePlotSample ℝ → List (CurvePlotSample ℝ)
  | [], inp => [inp]
  | s0 :: rest, inp =>
    if ((s0 :: rest).getLast (List.cons_ne_nil s0 rest)).t < inp.t then
      (s0 :: rest) ++
        [{ inp with boundingRadius :=
             segmentBoundingRadius ((s0 :: rest).getLast (List.cons_ne_nil s0 rest)) inp }]
    else if inp.t < s0.t then
      inp :: { s0 with boundingRadius := segmentBoundingRadius inp s0 } :: rest
    else
      s0 :: rest

/-- `modelview * Vector4d(p.x, p.y, p.z, 1.0)`. -/
def xfPoint (mv : M4 ℚ) (p : V3 ℚ) : V4 ℚ := mulVec4 mv ⟨p.x, p.y, p.z, 1⟩

/-- `modelview * Vector4d(v.x, v.y, v.z, 0.0)`. -/
def xfVel (mv : M4 ℚ) (v : V3 ℚ) : V4 ℚ := mulVec4 mv ⟨v.x, v.y, v.z, 0⟩

/-- The segment loop of the full-range `CurvePlot::render` (curveplot.cpp
lines 720-804), iterating over the sample indices in the given list and
threading the restart flag, the buffer state and the transformed previous
sample. -/
def renderFullGo (fuel : ℕ) (samples : List (CurvePlotSample ℚ)) (mv : M4 ℚ)
    (f : Frustum) (thr : ℚ) :
    List ℕ → Bool → VBState → V4 ℚ → V4 ℚ → Option (Bool × VBState)
  | [], restart, vb, _, _ => some (restart, vb)
  | i :: rest, restart, vb, p0, v0 =>
    let s := samples.getD i defaultSampleQ
    let sPrev := samples.getD (i - 1) defaultSampleQ
    let p1 := xfPoint mv s.position
    let v1 := xfVel mv s.velocity
    let r := s.boundingRadius
    let minDistance := |p0.z| - r
    if thr * minDistance ≤ r then
      if cullSphere4 f p0 r then
        let vb' := if restart then vb else vbEnd vb true
        renderFullGo fuel samples mv f thr rest true vb' p1 v1
      else
        let dt := s.t - sPrev.t
        let coeff := cubicHermiteCoefficients p0 p1 (smul4 dt v0) (smul4 dt v1)
        match renderCubic f thr fuel restart coeff 0 1 r with
        | none => none
        | some (restart', ops) =>
          renderFullGo fuel samples mv f thr rest restart' (applyOps vb ops) p1 v1
    else
      if p0.z + r < f.farZ then
        let vb' := if restart then vb else vbEnd vb true
        renderFullGo fuel samples mv f thr rest true vb' p1 v1
      else
        let vb1 := if restart then vbVertexC (vbBegin vb) p0 else vb
        let vb2 := vbVertexC vb1 p1
        renderFullGo fuel samples mv f thr rest false vb2 p1 v1

/-- Full-range `CurvePlot::render` (curveplot.cpp lines 691-821).  The code
reads `m_samples[0]` without checking for emptiness; on an empty deque that
access is out of bounds, modelled as `none`. -/
def renderFull (fuel : ℕ) (mv : M4 ℚ) (nearZ farZ : ℚ) (n0 n1 n2 n3 : V3 ℚ)
    (thr : ℚ) (color : V4 ℚ) (lineAsTriangles : Bool)
    (samples : List (CurvePlotSample ℚ)) (vb : VBState) : Option VBState :=
  match samples with
  | [] => none
  | s0 :: _ =>
    let f := mkFrustum nearZ farZ n0 n1 n2 n3
    let p0 := xfPoint mv s0.position
    let v0 := xfVel mv s0.velocity
    let vb1 := vbSetColor (vbSetup vb lineAsTriangles) color
    match renderFullGo fuel samples mv f thr (List.range' 1 (samples.length - 1))
            true vb1 p0 v0 with
    | none => none
    | some (restart, vb2) =>
      let vb3 := if restart then vb2 else vbEnd vb2 true
      some (vbFinish (vbFlush vb3 true))

/-- The linear search `while (startSample < size-1 && startTime >
t[startSample]) startSample++` of the clamped render entry points. -/
def scanStartGo (samples : List (CurvePlotSample ℚ)) (startTime : ℚ) : ℕ → ℕ → ℕ
  | 0, s => s
  | k + 1, s =>
    if s < samples.length - 1 ∧ (samples.getD s defaultSampleQ).t < startTime then
      scanStartGo samples startTime k (s + 1)
    else s

def scanStart (samples : List (CurvePlotSample ℚ)) (startTime : ℚ) : ℕ :=
  scanStartGo samples startTime samples.length 0

/-- The segment loop of the clamped-time-range `CurvePlot::render`
(curveplot.cpp lines 875-973).  `count` is structural fuel for the loop (the
caller passes the store size, an upper bound on the remaining iterations);
the loop stops when the index leaves the store or after processing the
segment flagged `lastSegment`.  In addition to the buffer state the function
logs every `(t0, t1)` parameter pair passed to renderCubic. -/
def renderTimeRangeGo (fuel : ℕ) (samples : List (CurvePlotSample ℚ)) (mv : M4 ℚ)
    (f : Frustum) (thr startTime endTime : ℚ) :
    ℕ → ℕ → Bool → Bool → VBState → V4 ℚ → V4 ℚ → List (ℚ × ℚ) →
    Option (Bool × VBState) × List (ℚ × ℚ)
  | 0, _, _, restart, vb, _, _, calls => (some (restart, vb), calls)
  | count + 1, i, firstSegment, restart, vb, p0, v0, calls =>
    if i < samples.length then
      let s := samples.getD i defaultSampleQ
      let sPrev := samples.getD (i - 1) defaultSampleQ
      let p1 := xfPoint mv s.position
      let v1 := xfVel mv s.velocity
      let lastSegment := endTime ≤ s.t
      let r := s.boundingRadius
      let minDistance := |p0.z| - r
      if thr * minDistance ≤ r ∨ lastSegment ∨ firstSegment then
        if cullSphere4 f p0 r then
          let vb' := if restart then vb else vbEnd vb true
          if lastSegment then (some (true, vb'), calls)
          else renderTimeRangeGo fuel samples mv f thr startTime endTime
                 count (i + 1) firstSegment true vb' p1 v1 calls
        else
          let dt := s.t - sPrev.t
          let t0 := if firstSegment then clamp01 ((startTime - sPrev.t) / dt) else 0
          let t1 := if lastSegment then (endTime - sPrev.t) / dt else 1
          let coeff := cubicHermiteCoefficients p0 p1 (smul4 dt v0) (smul4 dt v1)
          let calls' := calls ++ [(t0, t1)]
          match renderCubic f thr fuel restart coeff t0 t1 r with
          | none => (none, calls')
          | some (restart', ops) =>
            let vb' := applyOps vb ops
            if lastSegment then (some (restart', vb'), calls')
            else renderTimeRangeGo fuel samples mv f thr startTime endTime
                   count (i + 1) false restart' vb' p1 v1 calls'
      else
        if p0.z + r < f.farZ then
          let vb' := if restart then vb else vbEnd vb true
          if lastSegment then (some (true, vb'), calls)
          else renderTimeRangeGo fuel samples mv f thr startTime endTime
                 count (i + 1) firstSegment true vb' p1 v1 calls
        else
          let vb1 := if restart then vbVertexC (vbBegin vb) p0 else vb
          let vb2 := vbVertexC vb1 p1
          if lastSegment then (some (false, vb2), calls)
          else renderTimeRangeGo fuel samples mv f thr startTime endTime
                 count (i + 1) firstSegment false vb2 p1 v1 calls
    else (some (restart, vb), calls)

/-- Clamped-time-range `CurvePlot::render` (curveplot.cpp lines 834-982). -/
def renderTimeRange (fuel : ℕ) (mv : M4 ℚ) (nearZ farZ : ℚ) (n0 n1 n2 n3 : V3 ℚ)
    (thr startTime endTime : ℚ) (color : V4 ℚ) (lineAsTriangles : Bool)
    (samples : List (CurvePlotSample ℚ)) (vb : VBState) :
    Option VBState × List (ℚ × ℚ) :=
  match samples with
  | [] => (some vb, [])
  | s0 :: rest =>
    if endTime ≤ s0.t ∨ ((s0 :: rest).getLast (List.cons_ne_nil s0 rest)).t ≤ startTime then
      (some vb, [])
    else
      let startSample0 := scanStart (s0 :: rest) startTime
      let startSample := if 0 < startSample0 then startSample0 - 1 else startSample0
      let sStart := (s0 :: rest).getD startSample defaultSampleQ
      let p0 := xfPoint mv sStart.position
      let v0 := xfVel mv sStart.velocity
      let f := mkFrustum nearZ farZ n0 n1 n2 n3
      let vb1 := vbSetColor (vbSetup vb lineAsTriangles) color
      match renderTimeRangeGo fuel (s0 :: rest) mv f thr startTime endTime
              (s0 :: rest).length (startSample + 1) true true vb1 p0 v0 [] with
      | (none, calls) => (none, calls)
      | (some (restart, vb2), calls) =>
        let vb3 := if restart then vb2 else vbEnd vb2 true
        (some (vbFinish (vbFlush vb3 true)), calls)

/-- The segment loop of `CurvePlot::renderFaded` (curveplot.cpp lines
1048-1159); additionally threads the previous sample's clamped opacity and
logs the `(t0, t1)` pairs passed to renderCubicFaded. -/
def renderFadedGo (fuel : ℕ) (samples : List (CurvePlotSample ℚ)) (mv : M4 ℚ)
    (f : Frustum) (thr startTime endTime : ℚ) (color : V4 ℚ)
    (fadeStartTime fadeRate : ℚ) :
    ℕ → ℕ → Bool → Bool → VBState → V4 ℚ → V4 ℚ → ℚ → List (ℚ × ℚ) →
    Option (Bool × VBState) × List (ℚ × ℚ)
  | 0, _, _, restart, vb, _, _, _, calls => (some (restart, vb), calls)
  | count + 1, i, firstSegment, restart, vb, p0, v0, opacity0, calls =>
    if i < samples.length then
      let s := samples.getD i defaultSampleQ
      let sPrev := samples.getD (i - 1) defaultSampleQ
      let p1 := xfPoint mv s.position
      let v1 := xfVel mv s.velocity
      let opacity1 := clamp01 ((s.t - fadeStartTime) * fadeRate)
      let lastSegment := endTime ≤ s.t
      let r := s.boundingRadius
      let minDistance := |p0.z| - r
      if thr * minDistance ≤ r ∨ lastSegment ∨ firstSegment then
        if cullSphere4 f p0 r then
          let vb' := if restart then vb else vbEnd vb true
          if lastSegment then (some (true, vb'), calls)
          else renderFadedGo fuel samples mv f thr startTime endTime color
                 fadeStartTime fadeRate count (i + 1) firstSegment true vb' p1 v1
                 opacity1 calls
        else
          let dt := s.t - sPrev.t
          let t0 := if firstSegment then clamp01 ((startTime - sPrev.t) / dt) else 0
          let t1 := if lastSegment then (endTime - sPrev.t) / dt else 1
          let coeff := cubicHermiteCoefficients p0 p1 (smul4 dt v0) (smul4 dt v1)
          let calls' := calls ++ [(t0, t1)]
          match renderCubicFaded f thr color ((fadeStartTime - sPrev.t) / dt)
                  (fadeRate * dt) fuel restart coeff t0 t1 r with
          | none => (none, calls')
          | some (restart', ops) =>
            let vb' := applyOps vb ops
            if lastSegment then (some (restart', vb'), calls')
            else renderFadedGo fuel samples mv f thr startTime endTime color
                   fadeStartTime fadeRate count (i + 1) false restart' vb' p1 v1
                   opacity1 calls'
      else
        if p0.z + r < f.farZ then
          let vb' := if restart then vb else vbEnd vb true
          if lastSegment then (some (true, vb'), calls)
          else renderFadedGo fuel samples mv f thr startTime endTime color
                 fadeStartTime fadeRate count (i + 1) firstSegment true vb' p1 v1
                 opacity1 calls
        else
          let vb1 := if restart then vbVertex (vbBegin vb) p0 (mulAlpha color opacity0)
                     else vb
          let vb2 := vbVertex vb1 p1 (mulAlpha color opacity1)
          if lastSegment then (some (false, vb2), calls)
          else renderFadedGo fuel samples mv f thr startTime endTime color
                 fadeStartTime fadeRate count (i + 1) firstSegment false vb2 p1 v1
                 opacity1 calls
    else (some (restart, vb), calls)

/-- `CurvePlot::renderFaded` (curveplot.cpp lines 1001-1168).  Note: unlike
the other two entry points it does not call setColor; with fadeStartTime =
fadeEndTime the C++ fadeRate is an IEEE infinity, while the rational model
yields 1/0 = 0 (no claim depends on this case). -/
def renderFaded (fuel : ℕ) (mv : M4 ℚ) (nearZ farZ : ℚ) (n0 n1 n2 n3 : V3 ℚ)
    (thr startTime endTime : ℚ) (color : V4 ℚ) (fadeStartTime fadeEndTime : ℚ)
    (lineAsTriangles : Bool) (samples : List (CurvePlotSample ℚ)) (vb : VBState) :
    Option VBState × List (ℚ × ℚ) :=
  match samples with
  | [] => (some vb, [])
  | s0 :: rest =>
    if endTime ≤ s0.t ∨ ((s0 :: rest).getLast (List.cons_ne_nil s0 rest)).t ≤ startTime then
      (some vb, [])
    else
      let startSample0 := scanStart (s0 :: rest) startTime
      let startSample := if 0 < startSample0 then startSample0 - 1 else startSample0
      let fadeRate := 1 / (fadeEndTime - fadeStartTime)
      let sStart := (s0 :: rest).getD startSample defaultSampleQ
      let p0 := xfPoint mv sStart.position
      let v0 := xfVel mv sStart.velocity
      let opacity0 := clamp01 ((sStart.t - fadeStartTime) * fadeRate)
      let f := mkFrustum nearZ farZ n0 n1 n2 n3
      let vb1 := vbSetup vb lineAsTriangles
      match renderFadedGo fuel (s0 :: rest) mv f thr startTime endTime color
              fadeStartTime fadeRate (s0 :: rest).length (startSample + 1) true true
              vb1 p0 v0 opacity0 [] with
      | (none, calls) => (none, calls)
      | (some (restart, vb2), calls) =>
        let vb3 := if restart then vb2 else vbEnd vb2 true
        (some (vbFinish (vbFlush vb3 true)), calls)

/-- Spec-side formula: `minDistance = max(-nearZ, |z of subdivision point| -
segmentBoundingRadius)`. -/
def minDistanceSpec (nearZ z segR : ℚ) : ℚ := max (-nearZ) (|z| - segR)

/-- Spec-side decision rule: subdivide (or cull) iff `segmentBoundingRadius
>= subdivisionThreshold * minDistance`. -/
def subdivideSpec (nearZ thr segR z : ℚ) : Prop :=
  thr * minDistanceSpec nearZ z segR ≤ segR

instance (nearZ thr segR z : ℚ) : Decidable (subdivideSpec nearZ thr segR z) :=
  inferInstanceAs (Decidable (thr * minDistanceSpec nearZ z segR ≤ segR))

/-- Claim C1: in renderCubic (and renderCubicFaded), at every recursion level
and for each of the 8 equal sub-intervals, the subdivide-vs-draw decision is
exactly: with `segmentBoundingRadius` = the parent's bounding radius divided
by the fixed fan-out 8 and `minDistance = max(-nearZ, |z of the subdivision
point| - segmentBoundingRadius)`, the sub-segment is subdivided further (or
culled) iff `segmentBoundingRadius >= subdivisionThreshold * minDistance`,
and otherwise (when the inequality fails) it is drawn directly - the emitted
operations are vertices only and no recursive call takes place.  Stated as
the exact step equations of both loop bodies, plus the unfolding of one
recursion level showing the division by `SubdivisionFactor = 8` and the 8
equal sub-intervals. -/
theorem renderCubic_subdivision_decision
    (recurse : Bool → ℚ → ℚ → ℚ → Option (Bool × List VBOp))
    (f : Frustum) (thr : ℚ) (coeff : M4 ℚ) (color : V4 ℚ) (fadeStart fadeRate : ℚ)
    (t0 dt segR t1 r : ℚ) (i : ℕ) (rest : List ℕ) (restart : Bool)
    (lastP : V4 ℚ) (lastOpacity : ℚ) (acc : List VBOp) (fuel : ℕ) :
    (renderCubicLoop recurse f thr coeff t0 dt segR (i :: rest) restart lastP acc =
      (let t := t0 + dt * (i : ℚ)
       let p := evalCubic coeff t
       if subdivideSpec f.nearZ thr segR p.z then
         if cullSphere4 f p segR then
           renderCubicLoop recurse f thr coeff t0 dt segR rest true p
             (if restart then acc else acc ++ [VBOp.stripEnd])
         else
           match recurse restart (t - dt) t segR with
           | none => none
           | some (restart', ops) =>
             renderCubicLoop recurse f thr coeff t0 dt segR rest restart' p (acc ++ ops)
       else
         renderCubicLoop recurse f thr coeff t0 dt segR rest false p
           (acc ++ (if restart then [VBOp.stripBegin, VBOp.emit lastP none] else []) ++
            [VBOp.emit p none]))) ∧
    (renderCubicFadedLoop recurse f thr coeff color fadeStart fadeRate t0 dt segR
        (i :: rest) restart lastP lastOpacity acc =
      (let t := t0 + dt * (i : ℚ)
       let p := evalCubic coeff t
       let opacity := clamp01 ((t - fadeStart) * fadeRate)
       if subdivideSpec f.nearZ thr segR p.z then
         if cullSphere4 f p segR then
           renderCubicFadedLoop recurse f thr coeff color fadeStart fadeRate t0 dt segR
             rest true p opacity (if restart then acc else acc ++ [VBOp.stripEnd])
         else
           match recurse restart (t - dt) t segR with
           | none => none
           | some (restart', ops) =>
             renderCubicFadedLoop recurse f thr coeff color fadeStart fadeRate t0 dt segR
               rest restart' p opacity (acc ++ ops)
       else
         renderCubicFadedLoop recurse f thr coeff color fadeStart fadeRate t0 dt segR
           rest false p opacity
           (acc ++ (if restart then
                      [VBOp.stripBegin, VBOp.emit lastP (some (mulAlpha color lastOpacity))]
                    else []) ++
            [VBOp.emit p (some (mulAlpha color opacity))]))) ∧
    (renderCubic f thr (fuel + 1) restart coeff t0 t1 r =
      renderCubicLoop (fun rs a b rr => renderCubic f thr fuel rs coeff a b rr)
        f thr coeff t0 ((t1 - t0) * invSubdivisionFactor) (r * invSubdivisionFactor)
        subIndices restart (evalCubic coeff t0) []) ∧
    (renderCubicFaded f thr color fadeStart fadeRate (fuel + 1) restart coeff t0 t1 r =
      renderCubicFadedLoop
        (fun rs a b rr => renderCubicFaded f thr color fadeStart fadeRate fuel rs coeff a b rr)
        f thr coeff color fadeStart fadeRate
        t0 ((t1 - t0) * invSubdivisionFactor) (r * invSubdivisionFactor)
        subIndices restart (evalCubic coeff t0) (clamp01 ((t0 - fadeStart) * fadeRate)) []) ∧
    subIndices = [1, 2, 3, 4, 5, 6, 7, 8] ∧
    invSubdivisionFactor = 1 / 8 :=
  ⟨rfl, rfl, rfl, rfl, rfl, rfl⟩

/-- The store invariant: sample times strictly increase front to back. -/
def timesSorted {R : Type} (s : List (CurvePlotSample R)) : Prop :=
  List.Chain' (fun a b => a.t < b.t) s

lemma sorted_head_le_getLast {R : Type} (s0 : CurvePlotSample R)
    (rest : List (CurvePlotSample R)) (h : timesSorted (s0 :: rest)) :
    s0.t ≤ ((s0 :: rest).getLast (List.cons_ne_nil s0 rest)).t := by
  induction rest generalizing s0 with
  | nil => simp [List.getLast]
  | cons r0 rest' ih =>
    rw [List.getLast_cons (List.cons_ne_nil r0 rest')]
    have h1 := List.chain'_cons.mp h
    exact le_trans h1.1.le (ih r0 h1.2)

lemma addSample_sorted (s : List (CurvePlotSample ℝ)) (inp : CurvePlotSample ℝ)
    (h : timesSorted s) : timesSorted (addSample s inp) := by
  cases s with
  | nil => simp [addSample, timesSorted]
  | cons s0 rest =>
    rw [addSample]
    by_cases hb : ((s0 :: rest).getLast (List.cons_ne_nil s0 rest)).t < inp.t
    · rw [if_pos hb]
      refine List.Chain'.append h (List.chain'_singleton _) ?_
      intro x hx y hy
      rw [List.getLast?_eq_getLast _ (List.cons_ne_nil s0 rest)] at hx
      simp only [Option.mem_def, Option.some.injEq] at hx
      simp only [List.head?, Option.mem_def, Option.some.injEq] at hy
      subst hx; subst hy
      exact hb
    · rw [if_neg hb]
      by_cases hf : inp.t < s0.t
      · rw [if_pos hf]
        cases rest with
        | nil => exact List.chain'_cons.mpr ⟨hf, List.chain'_singleton _⟩
        | cons r0 rest' =>
          have h1 := List.chain'_cons.mp h
          exact List.chain'_cons.mpr ⟨hf, List.chain'_cons.mpr ⟨h1.1, h1.2⟩⟩
      · rw [if_neg hf]
        exact h

/-- Claim C4: for every initial store with strictly increasing times and
every sequence of addSample calls, the times remain strictly increasing; and
an addSample whose time lies strictly between the current first and last
sample times leaves the store completely unchanged (size and contents). -/
theorem addSample_order_invariant (s : List (CurvePlotSample ℝ))
    (inputs : List (CurvePlotSample ℝ)) (inp : CurvePlotSample ℝ) :
    (timesSorted s → timesSorted (List.foldl addSample s inputs)) ∧
    (∀ fhd lst, s.head? = some fhd → s.getLast? = some lst →
       fhd.t < inp.t → inp.t < lst.t → addSample s inp = s) := by
  constructor
  · intro hs
    induction inputs generalizing s with
    | nil => exact hs
    | cons a rest ih => exact ih (addSample s a) (addSample_sorted s a hs)
  · intro fhd lst hh hl h1 h2
    cases s with
    | nil => simp at hh
    | cons s0 rest =>
      have hfhd : fhd = s0 := by
        have := hh
        simp only [List.head?, Option.some.injEq] at this
        exact this.symm
      have hlst : lst = (s0 :: rest).getLast (List.cons_ne_nil s0 rest) := by
        rw [List.getLast?_eq_getLast _ (List.cons_ne_nil s0 rest)] at hl
        simpa using hl.symm
      rw [addSample, if_neg, if_neg]
      · subst hfhd
        exact not_lt.mpr h1.le
      · subst hlst
        exact not_lt.mpr h2.le

/-- Witness for C4 at a concrete store. -/
theorem addSample_order_invariant_witness :
    timesSorted (List.foldl addSample
      [(⟨0, ⟨0, 0, 0⟩, ⟨0, 0, 0⟩, (0 : ℝ)⟩ : CurvePlotSample ℝ),
       ⟨2, ⟨0, 0, 0⟩, ⟨0, 0, 0⟩, (0 : ℝ)⟩] []) ∧
    addSample
      [(⟨0, ⟨0, 0, 0⟩, ⟨0, 0, 0⟩, (0 : ℝ)⟩ : CurvePlotSample ℝ),
       ⟨2, ⟨0, 0, 0⟩, ⟨0, 0, 0⟩, (0 : ℝ)⟩] ⟨1, ⟨0, 0, 0⟩, ⟨0, 0, 0⟩, (0 : ℝ)⟩ =
      [⟨0, ⟨0, 0, 0⟩, ⟨0, 0, 0⟩, (0 : ℝ)⟩, ⟨2, ⟨0, 0, 0⟩, ⟨0, 0, 0⟩, (0 : ℝ)⟩] := by
  constructor
  · exact (addSample_order_invariant _ [] ⟨1, ⟨0, 0, 0⟩, ⟨0, 0, 0⟩, (0 : ℝ)⟩).1
      (by simp [timesSorted, List.chain'_cons])
  · exact (addSample_order_invariant _ [] _).2 _ _ rfl rfl (by norm_num) (by norm_num)

/-- Claim C10: on a non-empty store, addSample with a time exactly equal to
the first or the last sample time leaves the store completely unchanged. -/
theorem addSample_boundary_equal_rejected (s : List (CurvePlotSample ℝ))
    (hs : timesSorted s) (inp : CurvePlotSample ℝ) (fhd lst : CurvePlotSample ℝ)
    (hh : s.head? = some fhd) (hl : s.getLast? = some lst)
    (heq : inp.t = fhd.t ∨ inp.t = lst.t) : addSample s inp = s := by
  cases s with
  | nil => simp at hh
  | cons s0 rest =>
    have hfhd : fhd = s0 := by
      have := hh
      simp only [List.head?, Option.some.injEq] at this
      exact this.symm
    have hlst : lst = (s0 :: rest).getLast (List.cons_ne_nil s0 rest) := by
      rw [List.getLast?_eq_getLast _ (List.cons_ne_nil s0 rest)] at hl
      simpa using hl.symm
    have hle := sorted_head_le_getLast s0 rest hs
    subst hfhd; subst hlst
    rw [addSample, if_neg, if_neg]
    · rcases heq with h | h
      · rw [h]; exact lt_irrefl _
      · rw [h]; exact not_lt.mpr hle
    · rcases heq with h | h
      · rw [h]; exact not_lt.mpr hle
      · rw [h]; exact lt_irrefl _

/-- Witness for C10 at a concrete one-sample store. -/
theorem addSample_boundary_equal_rejected_witness :
    addSample [(⟨5, ⟨1, 2, 3⟩, ⟨0, 0, 0⟩, (0 : ℝ)⟩ : CurvePlotSample ℝ)]
      ⟨5, ⟨7, 7, 7⟩, ⟨1, 1, 1⟩, (0 : ℝ)⟩ =
      [⟨5, ⟨1, 2, 3⟩, ⟨0, 0, 0⟩, (0 : ℝ)⟩] :=
  addSample_boundary_equal_rejected _ (List.chain'_singleton _) _ _ _ rfl rfl (Or.inl rfl)

/-- The view volume of claim C3: points between the far and near planes that
are on the non-negative side of all four side planes. -/
def inViewVolume (nearZ farZ : ℚ) (n0 n1 n2 n3 : V3 ℚ) (p : V3 ℚ) : Prop :=
  farZ ≤ p.z ∧ p.z ≤ nearZ ∧
  0 ≤ dot3 p n0 ∧ 0 ≤ dot3 p n1 ∧ 0 ≤ dot3 p n2 ∧ 0 ≤ dot3 p n3

instance (nearZ farZ : ℚ) (n0 n1 n2 n3 p : V3 ℚ) :
    Decidable (inViewVolume nearZ farZ n0 n1 n2 n3 p) :=
  inferInstanceAs (Decidable (_ ∧ _))

lemma ratLeOfSqLeSq (a r : ℚ) (hr : 0 ≤ r) (h : a ^ 2 ≤ r ^ 2) : a ≤ r := by
  nlinarith [sq_nonneg (a - r), sq_nonneg (a + r)]

lemma cauchy3 (a b : V3 ℚ) : dot3 a b ^ 2 ≤ normSq3 a * normSq3 b := by
  simp only [dot3, normSq3]
  nlinarith [sq_nonneg (a.x * b.y - a.y * b.x), sq_nonneg (a.x * b.z - a.z * b.x),
             sq_nonneg (a.y * b.z - a.z * b.y)]

/-- Counterexample to claim C3 as stated: with a side-plane normal of norm
greater than 1 (the code never normalises its inputs), a point of the sphere
lies inside the view volume while cullSphere still reports the sphere as
culled.  Here n0 = (2,0,0), center c = (-10,0,-50), radius 19 and the in-volume
point p = (9, 0, -50) at distance exactly 19 from c. -/
theorem cullSphere_conservative_counterexample :
    (0 ≤ (19 : ℚ) ∧
     distSq3 ⟨9, 0, -50⟩ ⟨-10, 0, -50⟩ ≤ (19 : ℚ) ^ 2 ∧
     inViewVolume (-10) (-100) ⟨2, 0, 0⟩ ⟨0, 0, 0⟩ ⟨0, 0, 0⟩ ⟨0, 0, 0⟩ ⟨9, 0, -50⟩) ∧
    cullSphere3 (mkFrustum (-10) (-100) ⟨2, 0, 0⟩ ⟨0, 0, 0⟩ ⟨0, 0, 0⟩ ⟨0, 0, 0⟩)
      ⟨-10, 0, -50⟩ 19 = true := by
  refine ⟨⟨by norm_num, by norm_num [distSq3, normSq3, sub3],
    by norm_num [inViewVolume, dot3]⟩, ?_⟩
  norm_num [cullSphere3, mkFrustum, head3, zeroExtend, dot3]

/-- Claim C3 (amended: the four side-plane normals must have norm at most 1,
as the code assumes for its distance-to-plane comparison `center·n < -r`):
cullSphere is conservative - whenever some point within distance r of the
center lies inside the view volume, cullSphere returns false.  It is a pure
predicate (modelled as a function of its arguments alone). -/
theorem cullSphere_conservative (nearZ farZ r : ℚ) (n0 n1 n2 n3 c p : V3 ℚ)
    (hr : 0 ≤ r)
    (h0 : normSq3 n0 ≤ 1) (h1 : normSq3 n1 ≤ 1)
    (h2 : normSq3 n2 ≤ 1) (h3 : normSq3 n3 ≤ 1)
    (hdist : distSq3 p c ≤ r ^ 2)
    (hin : inViewVolume nearZ farZ n0 n1 n2 n3 p) :
    cullSphere3 (mkFrustum nearZ farZ n0 n1 n2 n3) c r = false := by
  obtain ⟨hfar, hnear, hp0, hp1, hp2, hp3⟩ := hin
  have hzsq : (c.z - p.z) ^ 2 ≤ r ^ 2 := by
    have := hdist
    simp only [distSq3, normSq3, sub3] at this
    nlinarith [sq_nonneg (p.x - c.x), sq_nonneg (p.y - c.y)]
  have hz1 : c.z - p.z ≤ r := ratLeOfSqLeSq _ _ hr hzsq
  have hz2 : p.z - c.z ≤ r := by
    refine ratLeOfSqLeSq _ _ hr ?_
    calc (p.z - c.z) ^ 2 = (c.z - p.z) ^ 2 := by ring
    _ ≤ r ^ 2 := hzsq
  have side : ∀ n : V3 ℚ, normSq3 n ≤ 1 → 0 ≤ dot3 p n → ¬(dot3 c n < -r) := by
    intro n hn hpn
    have hcs := cauchy3 (sub3 p c) n
    have hd : distSq3 p c = normSq3 (sub3 p c) := rfl
    have hsq : dot3 (sub3 p c) n ^ 2 ≤ r ^ 2 := by
      calc dot3 (sub3 p c) n ^ 2 ≤ normSq3 (sub3 p c) * normSq3 n := hcs
      _ ≤ r ^ 2 * 1 := by
          apply mul_le_mul (hd ▸ hdist) hn ?_ (by positivity)
          simp only [normSq3]
          positivity
      _ = r ^ 2 := by ring
    have hdn : dot3 (sub3 p c) n ≤ r := ratLeOfSqLeSq _ _ hr hsq
    have hlin : dot3 (sub3 p c) n = dot3 p n - dot3 c n := by
      simp only [dot3, sub3]; ring
    intro hcon
    rw [hlin] at hdn
    linarith
  simp only [cullSphere3, mkFrustum, head3, zeroExtend, Bool.or_eq_false_iff,
             decide_eq_false_iff_not, not_lt]
  refine ⟨⟨⟨⟨⟨?_, ?_⟩, ?_⟩, ?_⟩, ?_⟩, ?_⟩
  · linarith
  · linarith
  · exact not_lt.mp (side n0 h0 hp0)
  · exact not_lt.mp (side n1 h1 hp1)
  · exact not_lt.mp (side n2 h2 hp2)
  · exact not_lt.mp (side n3 h3 hp3)

/-- Witness for the amended C3 at a concrete sphere inside the volume. -/
theorem cullSphere_conservative_witness :
    cullSphere3 (mkFrustum (-1) (-10) ⟨1, 0, 0⟩ ⟨0, 0, 0⟩ ⟨0, 0, 0⟩ ⟨0, 0, 0⟩)
      ⟨0, 0, -5⟩ 1 = false :=
  cullSphere_conservative (-1) (-10) 1 ⟨1, 0, 0⟩ ⟨0, 0, 0⟩ ⟨0, 0, 0⟩ ⟨0, 0, 0⟩
    ⟨0, 0, -5⟩ ⟨0, 0, -5⟩ (by norm_num) (by norm_num [normSq3]) (by norm_num [normSq3])
    (by norm_num [normSq3]) (by norm_num [normSq3]) (by norm_num [distSq3, normSq3, sub3])
    (by norm_num [inViewVolume, dot3])

lemma renderCubicLoop_isSome_of_small (recurse : Bool → ℚ → ℚ → ℚ → Option (Bool × List VBOp))
    (f : Frustum) (thr : ℚ) (coeff : M4 ℚ) (t0 dt segR : ℚ)
    (hthr : 0 < thr) (hsmall : segR < thr * (-f.nearZ)) :
    ∀ (is : List ℕ) (restart : Bool) (lastP : V4 ℚ) (acc : List VBOp),
      (renderCubicLoop recurse f thr coeff t0 dt segR is restart lastP acc).isSome = true := by
  intro is
  induction is with
  | nil => intro restart lastP acc; rfl
  | cons i rest ih =>
    intro restart lastP acc
    rw [renderCubicLoop]
    rw [if_neg]
    · exact ih _ _ _
    · intro hcon
      have hmin : -f.nearZ ≤ max (-f.nearZ) (|(evalCubic coeff (t0 + dt * (i : ℚ))).z| - segR) :=
        le_max_left _ _
      have := mul_le_mul_of_nonneg_left hmin hthr.le
      linarith

lemma renderCubicLoop_isSome_of_rec (recurse : Bool → ℚ → ℚ → ℚ → Option (Bool × List VBOp))
    (f : Frustum) (thr : ℚ) (coeff : M4 ℚ) (t0 dt segR : ℚ)
    (hrec : ∀ (rs : Bool) (a b : ℚ), (recurse rs a b segR).isSome = true) :
    ∀ (is : List ℕ) (restart : Bool) (lastP : V4 ℚ) (acc : List VBOp),
      (renderCubicLoop recurse f thr coeff t0 dt segR is restart lastP acc).isSome = true := by
  intro is
  induction is with
  | nil => intro restart lastP acc; rfl
  | cons i rest ih =>
    intro restart lastP acc
    rw [renderCubicLoop]
    split
    · split
      · exact ih _ _ _
      · have h := hrec restart (t0 + dt * (i : ℚ) - dt) (t0 + dt * (i : ℚ))
        cases hx : recurse restart (t0 + dt * (i : ℚ) - dt) (t0 + dt * (i : ℚ)) segR with
        | none => rw [hx] at h; simp at h
        | some v =>
          cases v with
          | mk restart' ops => exact ih _ _ _
    · exact ih _ _ _

lemma renderCubic_isSome_of_fuel (f : Frustum) (thr : ℚ)
    (hthr : 0 < thr) (hnz : f.nearZ < 0) :
    ∀ (n : ℕ) (r : ℚ), r * invSubdivisionFactor < thr * (-f.nearZ) * (8 : ℚ) ^ n →
      ∀ (restart : Bool) (coeff : M4 ℚ) (t0 t1 : ℚ),
        (renderCubic f thr (n + 1) restart coeff t0 t1 r).isSome = true := by
  intro n
  induction n with
  | zero =>
    intro r hr restart coeff t0 t1
    rw [renderCubic]
    refine renderCubicLoop_isSome_of_small _ f thr coeff _ _ _ hthr ?_ subIndices _ _ _
    simpa using hr
  | succ n ih =>
    intro r hr restart coeff t0 t1
    rw [renderCubic]
    refine renderCubicLoop_isSome_of_rec _ f thr coeff _ _ _ ?_ subIndices _ _ _
    intro rs a b
    refine ih (r * invSubdivisionFactor) ?_ rs coeff a b
    have h8 : invSubdivisionFactor = 1 / 8 := rfl
    rw [h8] at hr ⊢
    have hpow : ((8 : ℚ)) ^ (n + 1) = 8 ^ n * 8 := by ring
    rw [hpow] at hr
    linarith

/-- Claim C9: for every positive subdivisionThreshold and negative nearZ,
renderCubic terminates on all inputs: some finite fuel suffices (the
recursion divides the bounding radius by 8 at each level while the decision
to recurse forces `segR >= thr * minDistance >= thr * (-nearZ) > 0`, so the
depth is bounded).  In the rational model every input is finite, matching
the claim's non-NaN hypothesis. -/
theorem renderCubic_terminates (f : Frustum) (thr : ℚ)
    (hthr : 0 < thr) (hnz : f.nearZ < 0)
    (coeff : M4 ℚ) (r t0 t1 : ℚ) (restart : Bool) :
    ∃ fuel, (renderCubic f thr fuel restart coeff t0 t1 r).isSome = true := by
  have hc : 0 < thr * (-f.nearZ) := mul_pos hthr (by linarith)
  obtain ⟨n, hn⟩ := pow_unbounded_of_one_lt (r * invSubdivisionFactor / (thr * (-f.nearZ)))
    (by norm_num : (1 : ℚ) < 8)
  refine ⟨n + 1, renderCubic_isSome_of_fuel f thr hthr hnz n r ?_ restart coeff t0 t1⟩
  rw [div_lt_iff₀ hc] at hn
  calc r * invSubdivisionFactor < 8 ^ n * (thr * (-f.nearZ)) := hn
  _ = thr * (-f.nearZ) * 8 ^ n := by ring

/-- Witness for C9 at concrete arguments. -/
theorem renderCubic_terminates_witness :
    ∃ fuel, (renderCubic (mkFrustum (-1) (-100) ⟨0, 0, 0⟩ ⟨0, 0, 0⟩ ⟨0, 0, 0⟩ ⟨0, 0, 0⟩)
      1 fuel true ⟨⟨0, 0, 0, 0⟩, ⟨0, 0, 0, 0⟩, ⟨0, 0, 0, 0⟩, ⟨0, 0, 0, 0⟩⟩ 5 0 1).isSome = true :=
  renderCubic_terminates (mkFrustum (-1) (-100) ⟨0, 0, 0⟩ ⟨0, 0, 0⟩ ⟨0, 0, 0⟩ ⟨0, 0, 0⟩)
    1 (by norm_num) (by norm_num [mkFrustum])
    ⟨⟨0, 0, 0, 0⟩, ⟨0, 0, 0, 0⟩, ⟨0, 0, 0, 0⟩, ⟨0, 0, 0, 0⟩⟩ 1 5 0 true

/-- The Hermite coefficient matrix built by addSample for an adjacent pair,
from (p0, p1, v0*dt, v1*dt) with zero-extended 3-vectors. -/
def segmentCoefficients {R : Type} (a b : CurvePlotSample R) : M4 ℚ :=
  let dt := b.t - a.t
  cubicHermiteCoefficients
    (zeroExtend a.position) (zeroExtend b.position)
    (zeroExtend (smul3 dt a.velocity)) (zeroExtend (smul3 dt b.velocity))

lemma segmentBoundingRadiusSq_eq {R : Type} (a b : CurvePlotSample R) :
    segmentBoundingRadiusSq a b = normSq4 (hermiteExtents (segmentCoefficients a b)) := rfl

def castV4 (v : V4 ℚ) : V4 ℝ := ⟨(v.x : ℝ), (v.y : ℝ), (v.z : ℝ), (v.w : ℝ)⟩

def castM4 (m : M4 ℚ) : M4 ℝ := ⟨castV4 m.c0, castV4 m.c1, castV4 m.c2, castV4 m.c3⟩

lemma cast_normSq_extents (m : M4 ℚ) :
    ((normSq4 (hermiteExtents m) : ℚ) : ℝ) = normSq4 (hermiteExtents (castM4 m)) := by
  simp only [normSq4, hermiteExtents, mulVec4, cwiseAbsM, abs4, add4, smul4, castM4, castV4]
  push_cast
  ring

lemma rowBound (c1 c2 c3 t : ℝ) (h0 : 0 ≤ t) (h1 : t ≤ 1) :
    (c1 * t + c2 * (t * t) + c3 * (t * t * t)) ^ 2 ≤ (|c1| + |c2| + |c3|) ^ 2 := by
  have htt : t * t ≤ 1 := mul_le_one₀ h1 h0 h1
  have httt : t * t * t ≤ 1 := mul_le_one₀ htt h0 h1
  have habs : |c1 * t + c2 * (t * t) + c3 * (t * t * t)| ≤ |c1| + |c2| + |c3| := by
    calc |c1 * t + c2 * (t * t) + c3 * (t * t * t)|
        ≤ |c1 * t| + |c2 * (t * t)| + |c3 * (t * t * t)| := abs_add_three _ _ _
    _ = |c1| * t + |c2| * (t * t) + |c3| * (t * t * t) := by
        rw [abs_mul c1 t, abs_mul c2 (t * t), abs_mul c3 (t * t * t),
            abs_of_nonneg h0, abs_of_nonneg (mul_nonneg h0 h0),
            abs_of_nonneg (mul_nonneg (mul_nonneg h0 h0) h0)]
    _ ≤ |c1| * 1 + |c2| * 1 + |c3| * 1 := by
        have a1 := abs_nonneg c1
        have a2 := abs_nonneg c2
        have a3 := abs_nonneg c3
        have b1 := mul_le_mul_of_nonneg_left h1 a1
        have b2 := mul_le_mul_of_nonneg_left htt a2
        have b3 := mul_le_mul_of_nonneg_left httt a3
        linarith
    _ = |c1| + |c2| + |c3| := by ring
  have h2 := abs_le.mp habs
  exact sq_le_sq' (by linarith [h2.1]) h2.2

lemma evalCubic_dist_le_extents (m : M4 ℝ) (t : ℝ) (h0 : 0 ≤ t) (h1 : t ≤ 1) :
    normSq4 (sub4 (evalCubic m t) (evalCubic m 0)) ≤ normSq4 (hermiteExtents m) := by
  have eL : normSq4 (sub4 (evalCubic m t) (evalCubic m 0)) =
      (m.c1.x * t + m.c2.x * (t * t) + m.c3.x * (t * t * t)) ^ 2 +
      (m.c1.y * t + m.c2.y * (t * t) + m.c3.y * (t * t * t)) ^ 2 +
      (m.c1.z * t + m.c2.z * (t * t) + m.c3.z * (t * t * t)) ^ 2 +
      (m.c1.w * t + m.c2.w * (t * t) + m.c3.w * (t * t * t)) ^ 2 := by
    simp only [normSq4, evalCubic, mulVec4, sub4, add4, smul4]
    ring
  have eR : normSq4 (hermiteExtents m) =
      (|m.c1.x| + |m.c2.x| + |m.c3.x|) ^ 2 +
      (|m.c1.y| + |m.c2.y| + |m.c3.y|) ^ 2 +
      (|m.c1.z| + |m.c2.z| + |m.c3.z|) ^ 2 +
      (|m.c1.w| + |m.c2.w| + |m.c3.w|) ^ 2 := by
    simp only [normSq4, hermiteExtents, mulVec4, cwiseAbsM, abs4, add4, smul4]
    ring
  rw [eL, eR]
  have hx := rowBound m.c1.x m.c2.x m.c3.x t h0 h1
  have hy := rowBound m.c1.y m.c2.y m.c3.y t h0 h1
  have hz := rowBound m.c1.z m.c2.z m.c3.z t h0 h1
  have hw := rowBound m.c1.w m.c2.w m.c3.w t h0 h1
  linarith

/-- Claim C2: the bounding radius computed by addSample for an adjacent pair
(the L2 norm of the componentwise-absolute-value coefficient matrix applied
to (0,1,1,1)) dominates the Euclidean distance from the segment start p(0)
to p(t) for every parameter t in [0,1] of the Hermite cubic built from
(p0, p1, v0*dt, v1*dt). -/
theorem segmentBoundingRadius_bounds_curve (a b : CurvePlotSample ℝ) (t : ℝ)
    (h0 : 0 ≤ t) (h1 : t ≤ 1) :
    Real.sqrt (normSq4 (sub4 (evalCubic (castM4 (segmentCoefficients a b)) t)
                             (evalCubic (castM4 (segmentCoefficients a b)) 0))) ≤
      segmentBoundingRadius a b := by
  unfold segmentBoundingRadius
  rw [segmentBoundingRadiusSq_eq, cast_normSq_extents]
  exact Real.sqrt_le_sqrt (evalCubic_dist_le_extents _ t h0 h1)

/-- Witness for C2 at a concrete sample pair and parameter. -/
theorem segmentBoundingRadius_bounds_curve_witness :
    Real.sqrt (normSq4 (sub4
        (evalCubic (castM4 (segmentCoefficients defaultSampleR defaultSampleR)) 0)
        (evalCubic (castM4 (segmentCoefficients defaultSampleR defaultSampleR)) 0))) ≤
      segmentBoundingRadius defaultSampleR defaultSampleR :=
  segmentBoundingRadius_bounds_curve defaultSampleR defaultSampleR 0 (le_refl 0) zero_le_one

lemma map_pos_set_self (l : List LVertex) (i : ℕ) (h : i < l.length) (x : LVertex)
    (hx : x.pos = (l.getD i defaultLV).pos) :
    (l.set i x).map LVertex.pos = l.map LVertex.pos := by
  apply List.ext_getElem
  · simp
  · intro n h1 h2
    simp only [List.getElem_map, List.getElem_set]
    split
    · rename_i he
      subst he
      rw [hx, List.getD_eq_getElem?_getD, List.getElem?_eq_getElem h]
      rfl
    · rfl

/-- Counterexample to claim C7 as stated: for a strip of two distinct
vertices a, b, `end()` appends a point whose position is that of the
second-to-last vertex a, not of the last vertex b (the code comment says
"append the second to last point again").  The appended buffer positions are
[a, b, a], not [a, b, b]. -/
theorem vbEnd_repeats_secondToLast_counterexample :
    (vbEnd ⟨10, [⟨⟨0, 0, 0, 0⟩, ⟨0, 0, 0, 0⟩, 1 / 2⟩, ⟨⟨1, 0, 0, 0⟩, ⟨0, 0, 0, 0⟩, 1 / 2⟩],
             2, [], ⟨0, 0, 0, 0⟩, false, []⟩ true).data.map LVertex.pos =
      [⟨0, 0, 0, 0⟩, ⟨1, 0, 0, 0⟩, ⟨0, 0, 0, 0⟩] ∧
    (⟨0, 0, 0, 0⟩ : V4 ℚ) ≠ ⟨1, 0, 0, 0⟩ := by
  constructor
  · norm_num [vbEnd, vbEndCore, defaultLV]
  · intro h
    have := congrArg V4.x h
    norm_num at this

/-- Claim C7 (amended: the appended extra point repeats the second-to-last
vertex's position, not the last; stated away from the capacity boundary
where end() would additionally auto-flush): end() discards a strip of fewer
than 2 vertices by rolling the cursor back with nothing recorded, and for a
strip of at least 2 vertices appends an extra point carrying the
second-to-last vertex's position after the final vertex and records the
strip's length in the completed-strip list; draw submissions are unchanged
either way. -/
theorem vbEnd_postcondition (vb : VBState)
    (hsl : vb.currentStripLength ≤ vb.data.length)
    (hcap : vb.data.length + 1 < vb.capacity) :
    (2 ≤ vb.currentStripLength →
      (vbEnd vb true).data.map LVertex.pos =
        vb.data.map LVertex.pos ++ [(vb.data.getD (vb.data.length - 2) defaultLV).pos] ∧
      (vbEnd vb true).stripLengths = vb.stripLengths ++ [vb.currentStripLength] ∧
      (vbEnd vb true).currentStripLength = 0 ∧
      (vbEnd vb true).drawn = vb.drawn) ∧
    (vb.currentStripLength ≤ 1 →
      (vbEnd vb true).data = vb.data.take (vb.data.length - vb.currentStripLength) ∧
      (vbEnd vb true).stripLengths = vb.stripLengths ∧
      (vbEnd vb true).currentStripLength = 0 ∧
      (vbEnd vb true).drawn = vb.drawn) := by
  constructor
  · intro h2
    have h1 : 1 < vb.currentStripLength := h2
    have hn2 : 2 ≤ vb.data.length := le_trans h2 hsl
    have hcore : vbEndCore vb =
        { vb with
          data := (vb.data.set (vb.data.length - 1)
                    { vb.data.getD (vb.data.length - 1) defaultLV with
                      scale := -(vb.data.getD (vb.data.length - 1) defaultLV).scale }) ++
                  [{ defaultLV with pos := (vb.data.getD (vb.data.length - 2) defaultLV).pos }],
          stripLengths := vb.stripLengths ++ [vb.currentStripLength],
          currentStripLength := 0 } := by
      rw [vbEndCore, if_pos h1]
    have hlen : (vbEndCore vb).data.length = vb.data.length + 1 := by
      rw [hcore]; simp
    have hne : ¬((vbEndCore vb).data.length = (vbEndCore vb).capacity) := by
      rw [hlen, hcore]
      exact Nat.ne_of_lt hcap
    have hcond : ¬(true = true ∧ (vbEndCore vb).data.length = (vbEndCore vb).capacity) :=
      fun hc => hne hc.2
    rw [vbEnd]
    rw [if_neg hcond]
    rw [hcore]
    refine ⟨?_, rfl, rfl, rfl⟩
    simp only [List.map_append, List.map_cons, List.map_nil]
    rw [map_pos_set_self]
    · omega
    · rfl
  · intro hle
    have h1 : ¬(1 < vb.currentStripLength) := by omega
    have hcore : vbEndCore vb =
        { vb with data := vb.data.take (vb.data.length - vb.currentStripLength),
                  currentStripLength := 0 } := by
      rw [vbEndCore, if_neg h1]
    have hlen : (vbEndCore vb).data.length = vb.data.length - vb.currentStripLength := by
      rw [hcore]; simp
    have hne : ¬((vbEndCore vb).data.length = (vbEndCore vb).capacity) := by
      rw [hlen, hcore]
      simp only []
      omega
    have hcond : ¬(true = true ∧ (vbEndCore vb).data.length = (vbEndCore vb).capacity) :=
      fun hc => hne hc.2
    rw [vbEnd]
    rw [if_neg hcond]
    rw [hcore]
    exact ⟨rfl, rfl, rfl, rfl⟩

/-- Witness for the amended C7 at a concrete two-vertex strip. -/
theorem vbEnd_postcondition_witness :
    (vbEnd ⟨10, [⟨⟨0, 0, 0, 0⟩, ⟨0, 0, 0, 0⟩, 1 / 2⟩, ⟨⟨1, 0, 0, 0⟩, ⟨0, 0, 0, 0⟩, 1 / 2⟩],
             2, [], ⟨0, 0, 0, 0⟩, false, []⟩ true).stripLengths = [2] := by
  have h := (vbEnd_postcondition
    ⟨10, [⟨⟨0, 0, 0, 0⟩, ⟨0, 0, 0, 0⟩, 1 / 2⟩, ⟨⟨1, 0, 0, 0⟩, ⟨0, 0, 0, 0⟩, 1 / 2⟩],
      2, [], ⟨0, 0, 0, 0⟩, false, []⟩ (by norm_num) (by norm_num)).1 (by norm_num)
  exact h.2.1

/-- Counterexample to claim C5 as stated: the full-range render entry point
does not return as a no-op on an empty sample store - it reads m_samples[0]
unconditionally (curveplot.cpp line 703), which is out of bounds on an empty
deque (modelled as none), unlike the two clamped entry points which check
emptiness first.  (Also, startTime == endTime strictly inside the stored
range passes the entry checks of the clamped entry points and is not treated
as a no-op.) -/
theorem renderFull_empty_store_counterexample :
    renderFull 1 ⟨⟨1, 0, 0, 0⟩, ⟨0, 1, 0, 0⟩, ⟨0, 0, 1, 0⟩, ⟨0, 0, 0, 1⟩⟩ (-1) (-100)
      ⟨0, 0, 0⟩ ⟨0, 0, 0⟩ ⟨0, 0, 0⟩ ⟨0, 0, 0⟩ 1 ⟨1, 1, 1, 1⟩ false [] vbInit = none := rfl

/-- Claim C5 (amended: the clamped-time-range render and renderFaded return
immediately - buffer untouched, no draw submissions - when the store is
empty or the requested range lies entirely outside the stored range
(endTime <= first sample time or startTime >= last sample time); the
full-range render reads the first sample unconditionally, so it is a no-op
producing no draw submissions only for stores with a single sample, and an
empty store is a fault rather than a no-op; a degenerate range with
startTime == endTime strictly inside the stored range is not intercepted). -/
theorem render_degenerate_noop (fuel : ℕ) (mv : M4 ℚ) (nearZ farZ : ℚ)
    (n0 n1 n2 n3 : V3 ℚ) (thr startTime endTime : ℚ) (color : V4 ℚ)
    (fadeStartTime fadeEndTime : ℚ) (lineAsTriangles : Bool)
    (samples : List (CurvePlotSample ℚ)) (vb : VBState) :
    (samples = [] ∨ endTime ≤ (samples.headD defaultSampleQ).t ∨
        (samples.getLastD defaultSampleQ).t ≤ startTime →
      renderTimeRange fuel mv nearZ farZ n0 n1 n2 n3 thr startTime endTime color
          lineAsTriangles samples vb = (some vb, []) ∧
      renderFaded fuel mv nearZ farZ n0 n1 n2 n3 thr startTime endTime color
          fadeStartTime fadeEndTime lineAsTriangles samples vb = (some vb, [])) ∧
    (samples.length = 1 →
      ∃ vb', renderFull fuel mv nearZ farZ n0 n1 n2 n3 thr color lineAsTriangles
               samples vb = some vb' ∧ vb'.drawn = vb.drawn) := by
  constructor
  · intro h
    cases samples with
    | nil => exact ⟨rfl, rfl⟩
    | cons s0 rest =>
      have hcond : endTime ≤ s0.t ∨
          ((s0 :: rest).getLast (List.cons_ne_nil s0 rest)).t ≤ startTime := by
        rcases h with h | h | h
        · exact absurd h (List.cons_ne_nil s0 rest)
        · exact Or.inl h
        · refine Or.inr ?_
          rw [List.getLastD_eq_getLast?, List.getLast?_eq_getLast _
            (List.cons_ne_nil s0 rest)] at h
          exact h
      constructor
      · rw [renderTimeRange, if_pos hcond]
      · rw [renderFaded, if_pos hcond]
  · intro hlen
    cases samples with
    | nil => simp at hlen
    | cons s0 rest =>
      cases rest with
      | cons s1 rest' => simp at hlen
      | nil =>
        refine ⟨vbSetColor (vbSetup vb lineAsTriangles) color, ?_, rfl⟩
        rw [renderFull]
        have : List.range' 1 (([s0] : List (CurvePlotSample ℚ)).length - 1) = [] := rfl
        rw [this]
        rw [renderFullGo]
        have hflush : vbFlush (vbSetColor (vbSetup vb lineAsTriangles) color) true =
            vbSetColor (vbSetup vb lineAsTriangles) color := by
          rw [vbFlush, if_neg]
          · rfl
          · simp [vbSetColor, vbSetup]
        show some (vbFinish (vbFlush (vbSetColor (vbSetup vb lineAsTriangles) color) true)) =
          some (vbSetColor (vbSetup vb lineAsTriangles) color)
        rw [hflush]
        rfl

/-- Witness for the amended C5 at concrete arguments. -/
theorem render_degenerate_noop_witness :
    renderTimeRange 1 ⟨⟨0, 0, 0, 0⟩, ⟨0, 0, 0, 0⟩, ⟨0, 0, 0, 0⟩, ⟨0, 0, 0, 0⟩⟩ (-1) (-100)
        ⟨0, 0, 0⟩ ⟨0, 0, 0⟩ ⟨0, 0, 0⟩ ⟨0, 0, 0⟩ 1 0 10 ⟨0, 0, 0, 0⟩ false [] vbInit =
      (some vbInit, []) ∧
    (∃ vb', renderFull 1 ⟨⟨0, 0, 0, 0⟩, ⟨0, 0, 0, 0⟩, ⟨0, 0, 0, 0⟩, ⟨0, 0, 0, 0⟩⟩ (-1) (-100)
        ⟨0, 0, 0⟩ ⟨0, 0, 0⟩ ⟨0, 0, 0⟩ ⟨0, 0, 0⟩ 1 ⟨0, 0, 0, 0⟩ false [defaultSampleQ] vbInit =
      some vb' ∧ vb'.drawn = vbInit.drawn) :=
  ⟨((render_degenerate_noop 1 ⟨⟨0, 0, 0, 0⟩, ⟨0, 0, 0, 0⟩, ⟨0, 0, 0, 0⟩, ⟨0, 0, 0, 0⟩⟩ (-1) (-100)
      ⟨0, 0, 0⟩ ⟨0, 0, 0⟩ ⟨0, 0, 0⟩ ⟨0, 0, 0⟩ 1 0 10 ⟨0, 0, 0, 0⟩ 0 0 false [] vbInit).1
      (Or.inl rfl)).1,
   (render_degenerate_noop 1 ⟨⟨0, 0, 0, 0⟩, ⟨0, 0, 0, 0⟩, ⟨0, 0, 0, 0⟩, ⟨0, 0, 0, 0⟩⟩ (-1) (-100)
      ⟨0, 0, 0⟩ ⟨0, 0, 0⟩ ⟨0, 0, 0⟩ ⟨0, 0, 0⟩ 1 0 10 ⟨0, 0, 0, 0⟩ 0 0 false
      [defaultSampleQ] vbInit).2 rfl⟩

lemma clamp01_mem (x : ℚ) : 0 ≤ clamp01 x ∧ clamp01 x ≤ 1 :=
  ⟨le_min (le_max_right x 0) zero_le_one, min_le_right _ _⟩

lemma sorted_getD_lt (samples : List (CurvePlotSample ℚ)) (hs : timesSorted samples)
    (i : ℕ) (h1 : 1 ≤ i) (h2 : i < samples.length) :
    (samples.getD (i - 1) defaultSampleQ).t < (samples.getD i defaultSampleQ).t := by
  obtain ⟨j, rfl⟩ : ∃ j, i = j + 1 := ⟨i - 1, by omega⟩
  have h3 : j < samples.length - 1 := by omega
  have hrel := List.chain'_iff_get.mp hs j h3
  rw [List.getD_eq_getElem?_getD, List.getD_eq_getElem?_getD,
      List.getElem?_eq_getElem (by omega : j + 1 - 1 < samples.length),
      List.getElem?_eq_getElem h2]
  simp only [List.get_eq_getElem] at hrel
  simp only [Nat.add_sub_cancel]
  exact hrel

lemma scanStartGo_prev (samples : List (CurvePlotSample ℚ)) (startTime : ℚ) :
    ∀ (k s : ℕ),
      (0 < s → (samples.getD (s - 1) defaultSampleQ).t < startTime) →
      0 < scanStartGo samples startTime k s →
      (samples.getD (scanStartGo samples startTime k s - 1) defaultSampleQ).t < startTime := by
  intro k
  induction k with
  | zero => intro s h hpos; exact h hpos
  | succ k ih =>
    intro s h hpos
    rw [scanStartGo] at hpos ⊢
    by_cases hc : s < samples.length - 1 ∧ (samples.getD s defaultSampleQ).t < startTime
    · rw [if_pos hc] at hpos ⊢
      exact ih (s + 1) (fun _ => by simpa using hc.2) hpos
    · rw [if_neg hc] at hpos ⊢
      exact h hpos

lemma scanStart_prev (samples : List (CurvePlotSample ℚ)) (startTime : ℚ)
    (h : 0 < scanStart samples startTime) :
    (samples.getD (scanStart samples startTime - 1) defaultSampleQ).t < startTime :=
  scanStartGo_prev samples startTime samples.length 0
    (fun h0 => absurd h0 (lt_irrefl 0)) h

def callInRange (c : ℚ × ℚ) : Prop := 0 ≤ c.1 ∧ c.1 ≤ 1 ∧ 0 ≤ c.2 ∧ c.2 ≤ 1

lemma renderTimeRangeGo_calls (fuel : ℕ) (samples : List (CurvePlotSample ℚ)) (mv : M4 ℚ)
    (f : Frustum) (thr startTime endTime : ℚ)
    (hs : timesSorted samples) (hse : startTime ≤ endTime) :
    ∀ (count i : ℕ) (firstSegment restart : Bool) (vb : VBState) (p0 v0 : V4 ℚ)
      (calls : List (ℚ × ℚ)),
      1 ≤ i →
      (i < samples.length → (samples.getD (i - 1) defaultSampleQ).t < endTime) →
      (∀ c ∈ calls, callInRange c) →
      ∀ c ∈ (renderTimeRangeGo fuel samples mv f thr startTime endTime count i
               firstSegment restart vb p0 v0 calls).2, callInRange c := by
  intro count
  induction count with
  | zero => intro i first restart vb p0 v0 calls _ _ hcalls; exact hcalls
  | succ count ih =>
    intro i first restart vb p0 v0 calls hi hprev hcalls
    rw [renderTimeRangeGo]
    by_cases hlen : i < samples.length
    case neg => rw [if_neg hlen]; exact hcalls
    case pos =>
    rw [if_pos hlen]
    have hdt : (samples.getD (i - 1) defaultSampleQ).t < (samples.getD i defaultSampleQ).t :=
      sorted_getD_lt samples hs i hi hlen
    have hprev' := hprev hlen
    have hnextpre : ∀ hnl : ¬(endTime ≤ (samples.getD i defaultSampleQ).t),
        i + 1 < samples.length →
        (samples.getD (i + 1 - 1) defaultSampleQ).t < endTime := by
      intro hnl _
      simpa using not_le.mp hnl
    have hts : ∀ (t0 t1 : ℚ),
        t0 = (if first = true then clamp01 ((startTime - (samples.getD (i - 1) defaultSampleQ).t) /
                ((samples.getD i defaultSampleQ).t - (samples.getD (i - 1) defaultSampleQ).t)) else 0) →
        t1 = (if endTime ≤ (samples.getD i defaultSampleQ).t then
                (endTime - (samples.getD (i - 1) defaultSampleQ).t) /
                ((samples.getD i defaultSampleQ).t - (samples.getD (i - 1) defaultSampleQ).t) else 1) →
        callInRange (t0, t1) := by
      intro t0 t1 ht0 ht1
      have hdtpos : 0 < (samples.getD i defaultSampleQ).t -
          (samples.getD (i - 1) defaultSampleQ).t := by linarith
      refine ⟨?_, ?_, ?_, ?_⟩
      · rw [ht0]; split
        · exact (clamp01_mem _).1
        · exact le_refl 0
      · rw [ht0]; split
        · exact (clamp01_mem _).2
        · exact zero_le_one
      · rw [ht1]; split
        · rename_i hlast
          apply div_nonneg _ hdtpos.le
          linarith
        · exact zero_le_one
      · rw [ht1]; split
        · rename_i hlast
          rw [div_le_one hdtpos]
          linarith
        · exact le_refl 1
    dsimp only
    split
    case isTrue hbranch =>
      split
      case isTrue hcull =>
        split
        case isTrue hlast => exact hcalls
        case isFalse hlast =>
          exact ih (i + 1) first true _ _ _ calls (by omega) (hnextpre hlast) hcalls
      case isFalse hcull =>
        have hdtpos : 0 < (samples.getD i defaultSampleQ).t -
            (samples.getD (i - 1) defaultSampleQ).t := by linarith
        have ht0l : 0 ≤ (if first = true then
            clamp01 ((startTime - (samples.getD (i - 1) defaultSampleQ).t) /
              ((samples.getD i defaultSampleQ).t - (samples.getD (i - 1) defaultSampleQ).t))
            else 0) := by
          split
          · exact (clamp01_mem _).1
          · exact le_refl 0
        have ht0u : (if first = true then
            clamp01 ((startTime - (samples.getD (i - 1) defaultSampleQ).t) /
              ((samples.getD i defaultSampleQ).t - (samples.getD (i - 1) defaultSampleQ).t))
            else 0) ≤ 1 := by
          split
          · exact (clamp01_mem _).2
          · exact zero_le_one
        have ht1l : 0 ≤ (endTime - (samples.getD (i - 1) defaultSampleQ).t) /
            ((samples.getD i defaultSampleQ).t - (samples.getD (i - 1) defaultSampleQ).t) :=
          div_nonneg (by linarith) hdtpos.le
        have ht1u : endTime ≤ (samples.getD i defaultSampleQ).t →
            (endTime - (samples.getD (i - 1) defaultSampleQ).t) /
            ((samples.getD i defaultSampleQ).t - (samples.getD (i - 1) defaultSampleQ).t) ≤ 1 := by
          intro hlast
          rw [div_le_one hdtpos]
          linarith
        have hmem : ∀ (t1 : ℚ), 0 ≤ t1 → t1 ≤ 1 →
            ∀ c ∈ calls ++
              [((if first = true then
                  clamp01 ((startTime - (samples.getD (i - 1) defaultSampleQ).t) /
                    ((samples.getD i defaultSampleQ).t - (samples.getD (i - 1) defaultSampleQ).t))
                  else 0), t1)], callInRange c := by
          intro t1 h1 h2 c hc
          rcases List.mem_append.mp hc with hc | hc
          · exact hcalls c hc
          · rcases List.mem_singleton.mp hc with rfl
            exact ⟨ht0l, ht0u, h1, h2⟩
        split
        case h_1 =>
          refine hmem _ ?_ ?_
          · split
            · exact ht1l
            · exact zero_le_one
          · split
            case isTrue hlast => exact ht1u hlast
            case isFalse => exact le_refl 1
        case h_2 heq =>
          split
          case isTrue hlast => exact hmem _ ht1l (ht1u hlast)
          case isFalse hlast =>
            exact ih (i + 1) false _ _ _ _ _ (by omega) (hnextpre hlast)
              (hmem 1 zero_le_one (le_refl 1))
    case isFalse hbranch =>
      split
      case isTrue hfar =>
        split
        case isTrue hlast => exact hcalls
        case isFalse hlast =>
          exact ih (i + 1) first true _ _ _ calls (by omega) (hnextpre hlast) hcalls
      case isFalse hfar =>
        split
        case isTrue hlast => exact hcalls
        case isFalse hlast =>
          exact ih (i + 1) first false _ _ _ calls (by omega) (hnextpre hlast) hcalls

lemma renderFadedGo_calls (fuel : ℕ) (samples : List (CurvePlotSample ℚ)) (mv : M4 ℚ)
    (f : Frustum) (thr startTime endTime : ℚ) (color : V4 ℚ) (fadeStartTime fadeRate : ℚ)
    (hs : timesSorted samples) (hse : startTime ≤ endTime) :
    ∀ (count i : ℕ) (firstSegment restart : Bool) (vb : VBState) (p0 v0 : V4 ℚ)
      (opacity0 : ℚ) (calls : List (ℚ × ℚ)),
      1 ≤ i →
      (i < samples.length → (samples.getD (i - 1) defaultSampleQ).t < endTime) →
      (∀ c ∈ calls, callInRange c) →
      ∀ c ∈ (renderFadedGo fuel samples mv f thr startTime endTime color fadeStartTime
               fadeRate count i firstSegment restart vb p0 v0 opacity0 calls).2,
        callInRange c := by
  intro count
  induction count with
  | zero => intro i first restart vb p0 v0 opacity0 calls _ _ hcalls; exact hcalls
  | succ count ih =>
    intro i first restart vb p0 v0 opacity0 calls hi hprev hcalls
    rw [renderFadedGo]
    by_cases hlen : i < samples.length
    case neg => rw [if_neg hlen]; exact hcalls
    case pos =>
    rw [if_pos hlen]
    have hdt : (samples.getD (i - 1) defaultSampleQ).t < (samples.getD i defaultSampleQ).t :=
      sorted_getD_lt samples hs i hi hlen
    have hprev' := hprev hlen
    have hnextpre : ∀ hnl : ¬(endTime ≤ (samples.getD i defaultSampleQ).t),
        i + 1 < samples.length →
        (samples.getD (i + 1 - 1) defaultSampleQ).t < endTime := by
      intro hnl _
      simpa using not_le.mp hnl
    have hts : ∀ (t0 t1 : ℚ),
        t0 = (if first = true then clamp01 ((startTime - (samples.getD (i - 1) defaultSampleQ).t) /
                ((samples.getD i defaultSampleQ).t - (samples.getD (i - 1) defaultSampleQ).t)) else 0) →
        t1 = (if endTime ≤ (samples.getD i defaultSampleQ).t then
                (endTime - (samples.getD (i - 1) defaultSampleQ).t) /
                ((samples.getD i defaultSampleQ).t - (samples.getD (i - 1) defaultSampleQ).t) else 1) →
        callInRange (t0, t1) := by
      intro t0 t1 ht0 ht1
      have hdtpos : 0 < (samples.getD i defaultSampleQ).t -
          (samples.getD (i - 1) defaultSampleQ).t := by linarith
      refine ⟨?_, ?_, ?_, ?_⟩
      · rw [ht0]; split
        · exact (clamp01_mem _).1
        · exact le_refl 0
      · rw [ht0]; split
        · exact (clamp01_mem _).2
        · exact zero_le_one
      · rw [ht1]; split
        · rename_i hlast
          apply div_nonneg _ hdtpos.le
          linarith
        · exact zero_le_one
      · rw [ht1]; split
        · rename_i hlast
          rw [div_le_one hdtpos]
          linarith
        · exact le_refl 1
    dsimp only
    split
    case isTrue hbranch =>
      split
      case isTrue hcull =>
        split
        case isTrue hlast => exact hcalls
        case isFalse hlast =>
          exact ih (i + 1) first true _ _ _ _ calls (by omega) (hnextpre hlast) hcalls
      case isFalse hcull =>
        have hdtpos : 0 < (samples.getD i defaultSampleQ).t -
            (samples.getD (i - 1) defaultSampleQ).t := by linarith
        have ht0l : 0 ≤ (if first = true then
            clamp01 ((startTime - (samples.getD (i - 1) defaultSampleQ).t) /
              ((samples.getD i defaultSampleQ).t - (samples.getD (i - 1) defaultSampleQ).t))
            else 0) := by
          split
          · exact (clamp01_mem _).1
          · exact le_refl 0
        have ht0u : (if first = true then
            clamp01 ((startTime - (samples.getD (i - 1) defaultSampleQ).t) /
              ((samples.getD i defaultSampleQ).t - (samples.getD (i - 1) defaultSampleQ).t))
            else 0) ≤ 1 := by
          split
          · exact (clamp01_mem _).2
          · exact zero_le_one
        have ht1l : 0 ≤ (endTime - (samples.getD (i - 1) defaultSampleQ).t) /
            ((samples.getD i defaultSampleQ).t - (samples.getD (i - 1) defaultSampleQ).t) :=
          div_nonneg (by linarith) hdtpos.le
        have ht1u : endTime ≤ (samples.getD i defaultSampleQ).t →
            (endTime - (samples.getD (i - 1) defaultSampleQ).t) /
            ((samples.getD i defaultSampleQ).t - (samples.getD (i - 1) defaultSampleQ).t) ≤ 1 := by
          intro hlast
          rw [div_le_one hdtpos]
          linarith
        have hmem : ∀ (t1 : ℚ), 0 ≤ t1 → t1 ≤ 1 →
            ∀ c ∈ calls ++
              [((if first = true then
                  clamp01 ((startTime - (samples.getD (i - 1) defaultSampleQ).t) /
                    ((samples.getD i defaultSampleQ).t - (samples.getD (i - 1) defaultSampleQ).t))
                  else 0), t1)], callInRange c := by
          intro t1 h1 h2 c hc
          rcases List.mem_append.mp hc with hc | hc
          · exact hcalls c hc
          · rcases List.mem_singleton.mp hc with rfl
            exact ⟨ht0l, ht0u, h1, h2⟩
        split
        case h_1 =>
          refine hmem _ ?_ ?_
          · split
            · exact ht1l
            · exact zero_le_one
          · split
            case isTrue hlast => exact ht1u hlast
            case isFalse => exact le_refl 1
        case h_2 heq =>
          split
          case isTrue hlast => exact hmem _ ht1l (ht1u hlast)
          case isFalse hlast =>
            exact ih (i + 1) false _ _ _ _ _ _ (by omega) (hnextpre hlast)
              (hmem 1 zero_le_one (le_refl 1))
    case isFalse hbranch =>
      split
      case isTrue hfar =>
        split
        case isTrue hlast => exact hcalls
        case isFalse hlast =>
          exact ih (i + 1) first true _ _ _ _ calls (by omega) (hnextpre hlast) hcalls
      case isFalse hfar =>
        split
        case isTrue hlast => exact hcalls
        case isFalse hlast =>
          exact ih (i + 1) first false _ _ _ _ calls (by omega) (hnextpre hlast) hcalls

/-- Claim C8 (amended: the guarantee holds for stores with strictly
increasing times and for startTime <= endTime; for endTime < startTime the
code leaves t1 unclamped and may pass a negative t1, see the
counterexample): in the clamped-time-range render and renderFaded, every
local-parameter pair (t0, t1) passed to renderCubic / renderCubicFaded lies
in [0,1]x[0,1]; t0 is clamped explicitly and t1 stays in range because the
last segment satisfies t_(i-1) < endTime <= t_i. -/
theorem clamped_parameters_in_range (fuel : ℕ) (mv : M4 ℚ) (nearZ farZ : ℚ)
    (n0 n1 n2 n3 : V3 ℚ) (thr startTime endTime : ℚ) (color : V4 ℚ)
    (fadeStartTime fadeEndTime : ℚ) (lineAsTriangles : Bool)
    (samples : List (CurvePlotSample ℚ)) (vb : VBState)
    (hs : timesSorted samples) (hse : startTime ≤ endTime) :
    (∀ c ∈ (renderTimeRange fuel mv nearZ farZ n0 n1 n2 n3 thr startTime endTime color
              lineAsTriangles samples vb).2, callInRange c) ∧
    (∀ c ∈ (renderFaded fuel mv nearZ farZ n0 n1 n2 n3 thr startTime endTime color
              fadeStartTime fadeEndTime lineAsTriangles samples vb).2, callInRange c) := by
  cases samples with
  | nil =>
    constructor
    · intro c hc; simp [renderTimeRange] at hc
    · intro c hc; simp [renderFaded] at hc
  | cons s0 rest =>
    by_cases hguard : endTime ≤ s0.t ∨
        ((s0 :: rest).getLast (List.cons_ne_nil s0 rest)).t ≤ startTime
    · constructor
      · intro c hc
        rw [renderTimeRange, if_pos hguard] at hc
        simp at hc
      · intro c hc
        rw [renderFaded, if_pos hguard] at hc
        simp at hc
    · push_neg at hguard
      have hpre : ∀ i : ℕ,
          i = (if 0 < scanStart (s0 :: rest) startTime then
                 scanStart (s0 :: rest) startTime - 1
               else scanStart (s0 :: rest) startTime) + 1 →
          i < (s0 :: rest).length →
          ((s0 :: rest).getD (i - 1) defaultSampleQ).t < endTime := by
        intro i hi _
        subst hi
        simp only [Nat.add_sub_cancel]
        by_cases hsc : 0 < scanStart (s0 :: rest) startTime
        · rw [if_pos hsc]
          calc ((s0 :: rest).getD (scanStart (s0 :: rest) startTime - 1) defaultSampleQ).t
              < startTime := scanStart_prev _ _ hsc
          _ ≤ endTime := hse
        · rw [if_neg hsc]
          have h0 : scanStart (s0 :: rest) startTime = 0 := by omega
          rw [h0]
          exact hguard.1
      obtain ⟨k, hk⟩ : ∃ k, (if 0 < scanStart (s0 :: rest) startTime then
          scanStart (s0 :: rest) startTime - 1 else scanStart (s0 :: rest) startTime) = k :=
        ⟨_, rfl⟩
      have hprek : k + 1 < (s0 :: rest).length →
          ((s0 :: rest).getD (k + 1 - 1) defaultSampleQ).t < endTime :=
        hpre (k + 1) (by rw [hk])
      constructor
      · intro c hc
        rw [renderTimeRange, if_neg (by push_neg; exact hguard)] at hc
        dsimp only at hc
        rw [hk] at hc
        revert hc
        split
        next o calls heq =>
          intro hc
          have hall := renderTimeRangeGo_calls fuel (s0 :: rest) mv
            (mkFrustum nearZ farZ n0 n1 n2 n3) thr startTime endTime hs hse
            (s0 :: rest).length (k + 1) true true
            (vbSetColor (vbSetup vb lineAsTriangles) color)
            (xfPoint mv ((s0 :: rest).getD k defaultSampleQ).position)
            (xfVel mv ((s0 :: rest).getD k defaultSampleQ).velocity) []
            (Nat.le_add_left 1 _) hprek (by intro c hc; simp at hc)
          rw [heq] at hall
          exact hall c hc
        next restart vb2 calls heq =>
          intro hc
          have hall := renderTimeRangeGo_calls fuel (s0 :: rest) mv
            (mkFrustum nearZ farZ n0 n1 n2 n3) thr startTime endTime hs hse
            (s0 :: rest).length (k + 1) true true
            (vbSetColor (vbSetup vb lineAsTriangles) color)
            (xfPoint mv ((s0 :: rest).getD k defaultSampleQ).position)
            (xfVel mv ((s0 :: rest).getD k defaultSampleQ).velocity) []
            (Nat.le_add_left 1 _) hprek (by intro c hc; simp at hc)
          rw [heq] at hall
          exact hall c hc
      · intro c hc
        rw [renderFaded, if_neg (by push_neg; exact hguard)] at hc
        dsimp only at hc
        rw [hk] at hc
        revert hc
        split
        next o calls heq =>
          intro hc
          have hall := renderFadedGo_calls fuel (s0 :: rest) mv
            (mkFrustum nearZ farZ n0 n1 n2 n3) thr startTime endTime color
            fadeStartTime (1 / (fadeEndTime - fadeStartTime)) hs hse
            (s0 :: rest).length (k + 1) true true
            (vbSetup vb lineAsTriangles)
            (xfPoint mv ((s0 :: rest).getD k defaultSampleQ).position)
            (xfVel mv ((s0 :: rest).getD k defaultSampleQ).velocity)
            (clamp01 ((((s0 :: rest).getD k defaultSampleQ).t - fadeStartTime) *
              (1 / (fadeEndTime - fadeStartTime)))) []
            (Nat.le_add_left 1 _) hprek (by intro c hc; simp at hc)
          rw [heq] at hall
          exact hall c hc
        next restart vb2 calls heq =>
          intro hc
          have hall := renderFadedGo_calls fuel (s0 :: rest) mv
            (mkFrustum nearZ farZ n0 n1 n2 n3) thr startTime endTime color
            fadeStartTime (1 / (fadeEndTime - fadeStartTime)) hs hse
            (s0 :: rest).length (k + 1) true true
            (vbSetup vb lineAsTriangles)
            (xfPoint mv ((s0 :: rest).getD k defaultSampleQ).position)
            (xfVel mv ((s0 :: rest).getD k defaultSampleQ).velocity)
            (clamp01 ((((s0 :: rest).getD k defaultSampleQ).t - fadeStartTime) *
              (1 / (fadeEndTime - fadeStartTime)))) []
            (Nat.le_add_left 1 _) hprek (by intro c hc; simp at hc)
          rw [heq] at hall
          exact hall c hc

/-- Witness for the amended C8: a concrete clamped run (samples at t = 0,
10, 20, startTime = 15 <= endTime = 25) records the call (1/2, 1), which the
theorem certifies to lie in the unit square. -/
theorem clamped_parameters_in_range_witness : callInRange ((1 : ℚ) / 2, 1) := by
  have hscan : scanStart
      [(⟨0, ⟨0, 0, -5⟩, ⟨0, 0, 0⟩, 0⟩ : CurvePlotSample ℚ), ⟨10, ⟨0, 0, -5⟩, ⟨0, 0, 0⟩, 0⟩,
       ⟨20, ⟨0, 0, -5⟩, ⟨0, 0, 0⟩, 0⟩] 15 = 2 := by
    norm_num [scanStart, scanStartGo, defaultSampleQ, List.getD]
  have hgo : renderTimeRangeGo 0
      [(⟨0, ⟨0, 0, -5⟩, ⟨0, 0, 0⟩, 0⟩ : CurvePlotSample ℚ), ⟨10, ⟨0, 0, -5⟩, ⟨0, 0, 0⟩, 0⟩,
       ⟨20, ⟨0, 0, -5⟩, ⟨0, 0, 0⟩, 0⟩]
      ⟨⟨1, 0, 0, 0⟩, ⟨0, 1, 0, 0⟩, ⟨0, 0, 1, 0⟩, ⟨0, 0, 0, 1⟩⟩
      (mkFrustum (-1) (-100) ⟨0, 0, 0⟩ ⟨0, 0, 0⟩ ⟨0, 0, 0⟩ ⟨0, 0, 0⟩) 1 15 25 3 2 true true
      (vbSetColor (vbSetup vbInit false) ⟨0, 0, 0, 0⟩) ⟨0, 0, -5, 1⟩ ⟨0, 0, 0, 0⟩ [] =
      (none, [((1 : ℚ) / 2, 1)]) := by
    rw [renderTimeRangeGo]
    norm_num [defaultSampleQ, List.getD, xfPoint, xfVel, mulVec4, add4, smul4, sub4,
      cullSphere4, dot4, mkFrustum, zeroExtend, clamp01, cubicHermiteCoefficients,
      max_def, min_def, renderCubic]
  have hmem : ((1 : ℚ) / 2, (1 : ℚ)) ∈
      (renderTimeRange 0 ⟨⟨1, 0, 0, 0⟩, ⟨0, 1, 0, 0⟩, ⟨0, 0, 1, 0⟩, ⟨0, 0, 0, 1⟩⟩
        (-1) (-100) ⟨0, 0, 0⟩ ⟨0, 0, 0⟩ ⟨0, 0, 0⟩ ⟨0, 0, 0⟩ 1 15 25 ⟨0, 0, 0, 0⟩ false
        [⟨0, ⟨0, 0, -5⟩, ⟨0, 0, 0⟩, 0⟩, ⟨10, ⟨0, 0, -5⟩, ⟨0, 0, 0⟩, 0⟩,
         ⟨20, ⟨0, 0, -5⟩, ⟨0, 0, 0⟩, 0⟩] vbInit).2 := by
    rw [renderTimeRange]
    rw [if_neg (by norm_num [List.getLast])]
    dsimp only
    rw [hscan]
    norm_num [defaultSampleQ, List.getD, xfPoint, xfVel, mulVec4, add4, smul4, hgo]
  exact (clamped_parameters_in_range 0
    ⟨⟨1, 0, 0, 0⟩, ⟨0, 1, 0, 0⟩, ⟨0, 0, 1, 0⟩, ⟨0, 0, 0, 1⟩⟩ (-1) (-100)
    ⟨0, 0, 0⟩ ⟨0, 0, 0⟩ ⟨0, 0, 0⟩ ⟨0, 0, 0⟩ 1 15 25 ⟨0, 0, 0, 0⟩ 0 0 false
    [⟨0, ⟨0, 0, -5⟩, ⟨0, 0, 0⟩, 0⟩, ⟨10, ⟨0, 0, -5⟩, ⟨0, 0, 0⟩, 0⟩,
     ⟨20, ⟨0, 0, -5⟩, ⟨0, 0, 0⟩, 0⟩] vbInit
    (by norm_num [timesSorted, List.chain'_cons]) (by norm_num)).1 _ hmem

/-- Counterexample to claim C8 as stated: with endTime < startTime (both
passing the entry checks: endTime above the first sample time, startTime
below the last sample time), the first processed segment is also the last,
t0 is clamped to 1/2, but t1 = (endTime - t_(i-1))/dt = -1/2 is passed to
renderCubic unclamped - the code clamps t0 only, never t1 (curveplot.cpp
lines 934-937). -/
theorem renderTimeRange_t1_unclamped_counterexample :
    (((1 : ℚ) / 2, -(1 : ℚ) / 2) ∈
      (renderTimeRange 1 ⟨⟨1, 0, 0, 0⟩, ⟨0, 1, 0, 0⟩, ⟨0, 0, 1, 0⟩, ⟨0, 0, 0, 1⟩⟩
        (-1) (-100) ⟨0, 0, 0⟩ ⟨0, 0, 0⟩ ⟨0, 0, 0⟩ ⟨0, 0, 0⟩ 1 15 5 ⟨0, 0, 0, 0⟩ false
        [⟨0, ⟨0, 0, -5⟩, ⟨0, 0, 0⟩, 0⟩, ⟨10, ⟨0, 0, -5⟩, ⟨0, 0, 0⟩, 0⟩,
         ⟨20, ⟨0, 0, -5⟩, ⟨0, 0, 0⟩, 0⟩] vbInit).2) ∧
    ¬(0 ≤ -(1 : ℚ) / 2) := by
  constructor
  · have hcubic : renderCubic
        ⟨-1, -100, ⟨0, 0, 0, 0⟩, ⟨0, 0, 0, 0⟩, ⟨0, 0, 0, 0⟩, ⟨0, 0, 0, 0⟩⟩
        1 1 true ⟨⟨0, 0, -5, 1⟩, ⟨0, 0, 0, 0⟩, ⟨0, 0, 0, 0⟩, ⟨0, 0, 0, 0⟩⟩
        (1 / 2) (-(1 / 2)) 0 =
      some (false,
        [VBOp.stripBegin, VBOp.emit ⟨0, 0, -5, 1⟩ none, VBOp.emit ⟨0, 0, -5, 1⟩ none,
         VBOp.emit ⟨0, 0, -5, 1⟩ none, VBOp.emit ⟨0, 0, -5, 1⟩ none, VBOp.emit ⟨0, 0, -5, 1⟩ none,
         VBOp.emit ⟨0, 0, -5, 1⟩ none, VBOp.emit ⟨0, 0, -5, 1⟩ none, VBOp.emit ⟨0, 0, -5, 1⟩ none,
         VBOp.emit ⟨0, 0, -5, 1⟩ none]) := by
      norm_num [renderCubic, renderCubicLoop, subIndices, SubdivisionFactor,
        invSubdivisionFactor, evalCubic, mulVec4, add4, smul4, mkFrustum, zeroExtend,
        cullSphere4, dot4, List.range']
    have hscan : scanStart
        [(⟨0, ⟨0, 0, -5⟩, ⟨0, 0, 0⟩, 0⟩ : CurvePlotSample ℚ), ⟨10, ⟨0, 0, -5⟩, ⟨0, 0, 0⟩, 0⟩,
         ⟨20, ⟨0, 0, -5⟩, ⟨0, 0, 0⟩, 0⟩] 15 = 2 := by
      norm_num [scanStart, scanStartGo, defaultSampleQ, List.getD]
    have hgo : renderTimeRangeGo 1
        [(⟨0, ⟨0, 0, -5⟩, ⟨0, 0, 0⟩, 0⟩ : CurvePlotSample ℚ), ⟨10, ⟨0, 0, -5⟩, ⟨0, 0, 0⟩, 0⟩,
         ⟨20, ⟨0, 0, -5⟩, ⟨0, 0, 0⟩, 0⟩]
        ⟨⟨1, 0, 0, 0⟩, ⟨0, 1, 0, 0⟩, ⟨0, 0, 1, 0⟩, ⟨0, 0, 0, 1⟩⟩
        (mkFrustum (-1) (-100) ⟨0, 0, 0⟩ ⟨0, 0, 0⟩ ⟨0, 0, 0⟩ ⟨0, 0, 0⟩) 1 15 5 3 2 true true
        (vbSetColor (vbSetup vbInit false) ⟨0, 0, 0, 0⟩) ⟨0, 0, -5, 1⟩ ⟨0, 0, 0, 0⟩ [] =
      (some (false, applyOps (vbSetColor (vbSetup vbInit false) ⟨0, 0, 0, 0⟩)
        [VBOp.stripBegin, VBOp.emit ⟨0, 0, -5, 1⟩ none, VBOp.emit ⟨0, 0, -5, 1⟩ none,
         VBOp.emit ⟨0, 0, -5, 1⟩ none, VBOp.emit ⟨0, 0, -5, 1⟩ none, VBOp.emit ⟨0, 0, -5, 1⟩ none,
         VBOp.emit ⟨0, 0, -5, 1⟩ none, VBOp.emit ⟨0, 0, -5, 1⟩ none, VBOp.emit ⟨0, 0, -5, 1⟩ none,
         VBOp.emit ⟨0, 0, -5, 1⟩ none]), [((1 : ℚ) / 2, -(1 : ℚ) / 2)]) := by
      rw [renderTimeRangeGo]
      norm_num [defaultSampleQ, List.getD, xfPoint, xfVel, mulVec4, add4, smul4, sub4,
        cullSphere4, dot4, mkFrustum, zeroExtend, clamp01, cubicHermiteCoefficients,
        max_def, min_def, hcubic]
    rw [renderTimeRange]
    rw [if_neg (by norm_num [List.getLast])]
    dsimp only
    rw [hscan]
    norm_num [defaultSampleQ, List.getD, xfPoint, xfVel, mulVec4, add4, smul4, hgo]
  · norm_num

/-- Feeding a list of positions through `vertex()` (with the buffer's current
color), as one logical strip. -/
def feedVertices (vb : VBState) (vs : List (V4 ℚ)) : VBState :=
  vs.foldl (fun b v => vbVertexC b v) vb

/-- A buffer state in the middle of the first strip after setup: the live
data is the current strip, nothing recorded yet. -/
def midStrip (c : ℕ) (d : List LVertex) (col : V4 ℚ) (lm : Bool)
    (dr : List (List (V4 ℚ))) : VBState :=
  ⟨c, d, d.length, [], col, lm, dr⟩

/-- Spec-side oracle for claim C6: the strips actually drawn when a list of
positions is fed as one strip through a buffer of capacity c.  A generation
fills up at c vertices, is drawn whole, and the next generation is re-seeded
with the boundary vertex; the final generation is drawn only if it has at
least 2 vertices. -/
def stripChunks (c : ℕ) : List (V4 ℚ) → List (V4 ℚ) → List (List (V4 ℚ))
  | cur, [] => if 2 ≤ cur.length then [cur] else []
  | cur, v :: rest =>
    if cur.length + 1 = c then (cur ++ [v]) :: stripChunks c [v] rest
    else stripChunks c (cur ++ [v]) rest

lemma extract_one (D : List LVertex) (extra : LVertex) :
    extractStrips (D ++ [extra]) [D.length] = [D.map LVertex.pos] := by
  rw [extractStrips, extractStrips]
  congr 1
  rw [List.take_left]

lemma vbEndFlush_midStrip (c : ℕ) (d : List LVertex) (col : V4 ℚ) (lm : Bool)
    (dr : List (List (V4 ℚ))) (hn : d.length < c) :
    (vbFlush (vbEnd (midStrip c d col lm dr) true) true).drawn =
      dr ++ (if 2 ≤ d.length then [d.map LVertex.pos] else []) := by
  by_cases h2 : 1 < d.length
  · set S := d.set (d.length - 1)
      { d.getD (d.length - 1) defaultLV with
        scale := -(d.getD (d.length - 1) defaultLV).scale } with hS
    set E : LVertex := { defaultLV with pos := (d.getD (d.length - 2) defaultLV).pos } with hE
    have hSlen : S.length = d.length := List.length_set d _ _
    have hSmap : S.map LVertex.pos = d.map LVertex.pos :=
      map_pos_set_self d (d.length - 1) (by omega) _ rfl
    have hext : extractStrips (S ++ [E]) [d.length] = [d.map LVertex.pos] := by
      have h1 := extract_one S E
      rw [hSlen, hSmap] at h1
      exact h1
    have hcore : vbEndCore (midStrip c d col lm dr) =
        ⟨c, S ++ [E], 0, [d.length], col, lm, dr⟩ := by
      rw [vbEndCore, if_pos (show 1 < (midStrip c d col lm dr).currentStripLength from h2)]
      rfl
    have hend : vbEnd (midStrip c d col lm dr) true =
        (if d.length + 1 = c then
          vbFlush ⟨c, S ++ [E], 0, [d.length], col, lm, dr⟩ false
        else ⟨c, S ++ [E], 0, [d.length], col, lm, dr⟩) := by
      rw [vbEnd, hcore]
      by_cases hfc : d.length + 1 = c
      · rw [if_pos hfc, if_pos]
        refine ⟨rfl, ?_⟩
        simp [hSlen, hfc]
      · rw [if_neg hfc, if_neg]
        intro hcon
        apply hfc
        have := hcon.2
        simpa [hSlen] using this
    have hflush1 : vbFlush ⟨c, S ++ [E], 0, [d.length], col, lm, dr⟩ false =
        ⟨c, [], 0, [], col, lm, dr ++ [d.map LVertex.pos]⟩ := by
      rw [vbFlush, if_pos (by simp)]
      rw [if_neg (by simp)]
      simp only [hext]
    have hflush2 : vbFlush ⟨c, S ++ [E], 0, [d.length], col, lm, dr⟩ true =
        ⟨c, [], 0, [], col, lm, dr ++ [d.map LVertex.pos]⟩ := by
      rw [vbFlush, if_pos (by simp)]
      rw [if_neg (by simp)]
      simp only [hext]
    have hflushEmpty : vbFlush ⟨c, [], 0, [], col, lm, dr ++ [d.map LVertex.pos]⟩ true =
        ⟨c, [], 0, [], col, lm, dr ++ [d.map LVertex.pos]⟩ := by
      rw [vbFlush, if_neg (by simp)]
    rw [hend]
    by_cases hfc : d.length + 1 = c
    · rw [if_pos hfc, hflush1, hflushEmpty, if_pos (show 2 ≤ d.length by omega)]
    · rw [if_neg hfc, hflush2, if_pos (show 2 ≤ d.length by omega)]
  · have hcore : vbEndCore (midStrip c d col lm dr) =
        ⟨c, [], 0, [], col, lm, dr⟩ := by
      rw [vbEndCore, if_neg (show ¬1 < (midStrip c d col lm dr).currentStripLength from h2)]
      simp [midStrip]
    have hend : vbEnd (midStrip c d col lm dr) true = ⟨c, [], 0, [], col, lm, dr⟩ := by
      rw [vbEnd, hcore, if_neg]
      intro hcon
      have := hcon.2
      simp at this
      omega
    rw [hend]
    rw [vbFlush, if_neg (by simp)]
    rw [if_neg (show ¬2 ≤ d.length by omega)]
    simp

lemma vbVertexC_midStrip (c : ℕ) (d : List LVertex) (col : V4 ℚ) (lm : Bool)
    (dr : List (List (V4 ℚ))) (v : V4 ℚ) (h : ¬(d.length + 1 = c)) :
    vbVertexC (midStrip c d col lm dr) v =
      midStrip c (d ++ [⟨v, col, 1 / 2⟩]) col lm dr := by
  rw [vbVertexC, vbVertex]
  rw [if_neg (by simpa using h)]
  simp [midStrip]

lemma vbFlush_midStrip_full (c : ℕ) (d' : List LVertex) (col : V4 ℚ) (lm : Bool)
    (dr : List (List (V4 ℚ))) (h1 : 2 ≤ d'.length) :
    vbFlush (midStrip c d' col lm dr) true =
      ⟨c, [], 0, [], col, lm, dr ++ [d'.map LVertex.pos]⟩ := by
  set S := d'.set (d'.length - 1)
    { d'.getD (d'.length - 1) defaultLV with
      scale := -(d'.getD (d'.length - 1) defaultLV).scale } with hS
  set E : LVertex := { defaultLV with pos := (d'.getD (d'.length - 2) defaultLV).pos } with hE
  have hSlen : S.length = d'.length := List.length_set d' _ _
  have hSmap : S.map LVertex.pos = d'.map LVertex.pos :=
    map_pos_set_self d' (d'.length - 1) (by omega) _ rfl
  have hext : extractStrips (S ++ [E]) [d'.length] = [d'.map LVertex.pos] := by
    have hx := extract_one S E
    rw [hSlen, hSmap] at hx
    exact hx
  have hcore : vbEndCore (midStrip c d' col lm dr) =
      ⟨c, S ++ [E], 0, [d'.length], col, lm, dr⟩ := by
    rw [vbEndCore, if_pos (show 1 < (midStrip c d' col lm dr).currentStripLength from by
      simp only [midStrip]; omega)]
    rfl
  rw [vbFlush]
  rw [if_pos (show 0 < (midStrip c d' col lm dr).data.length from by
    simp only [midStrip]; omega)]
  rw [if_pos (show true = true ∧ 1 < (midStrip c d' col lm dr).currentStripLength from
    ⟨rfl, by simp only [midStrip]; omega⟩)]
  rw [hcore]
  dsimp only
  rw [hext]

lemma vbVertexC_midStrip_flush (c : ℕ) (d : List LVertex) (col : V4 ℚ) (lm : Bool)
    (dr : List (List (V4 ℚ))) (v : V4 ℚ) (hc : 2 ≤ c) (h : d.length + 1 = c) :
    vbVertexC (midStrip c d col lm dr) v =
      midStrip c [(⟨v, col, 1 / 2⟩ : LVertex)] col lm
        (dr ++ [(d ++ [(⟨v, col, 1 / 2⟩ : LVertex)]).map LVertex.pos]) := by
  rw [vbVertexC, vbVertex]
  split
  case isFalse hcond =>
    exact absurd (by simp only [midStrip, List.length_append, List.length_cons,
      List.length_nil]; omega) hcond
  case isTrue hcond =>
    dsimp only [midStrip]
    have hstate : (⟨c, d ++ [(⟨v, col, 1 / 2⟩ : LVertex)], d.length + 1, [], col, lm,
          dr⟩ : VBState) =
        midStrip c (d ++ [(⟨v, col, 1 / 2⟩ : LVertex)]) col lm dr := by
      simp [midStrip]
    rw [hstate]
    rw [vbFlush_midStrip_full c (d ++ [(⟨v, col, 1 / 2⟩ : LVertex)]) col lm dr
      (by simp only [List.length_append, List.length_cons, List.length_nil]; omega)]
    rfl

lemma feed_strip (c : ℕ) (hc : 2 ≤ c) :
    ∀ (vs : List (V4 ℚ)) (d : List LVertex) (col : V4 ℚ) (lm : Bool)
      (dr : List (List (V4 ℚ))), d.length < c →
      (vbFlush (vbEnd (feedVertices (midStrip c d col lm dr) vs) true) true).drawn =
        dr ++ stripChunks c (d.map LVertex.pos) vs := by
  intro vs
  induction vs with
  | nil =>
    intro d col lm dr hd
    show (vbFlush (vbEnd (midStrip c d col lm dr) true) true).drawn = _
    rw [vbEndFlush_midStrip c d col lm dr hd, stripChunks]
    congr 1
    rw [List.length_map]
  | cons v rest ih =>
    intro d col lm dr hd
    have hfeed : feedVertices (midStrip c d col lm dr) (v :: rest) =
        feedVertices (vbVertexC (midStrip c d col lm dr) v) rest := rfl
    rw [hfeed]
    by_cases hseam : d.length + 1 = c
    · rw [vbVertexC_midStrip_flush c d col lm dr v hc hseam]
      rw [ih [(⟨v, col, 1 / 2⟩ : LVertex)] col lm
        (dr ++ [(d ++ [(⟨v, col, 1 / 2⟩ : LVertex)]).map LVertex.pos])
        (by simp only [List.length_cons, List.length_nil]; omega)]
      rw [stripChunks]
      rw [if_pos (by rw [List.length_map]; exact hseam)]
      simp [List.append_assoc]
    · rw [vbVertexC_midStrip c d col lm dr v hseam]
      rw [ih (d ++ [(⟨v, col, 1 / 2⟩ : LVertex)]) col lm dr
        (by simp only [List.length_append, List.length_cons, List.length_nil]; omega)]
      rw [stripChunks]
      rw [if_neg (by rw [List.length_map]; exact hseam)]
      rw [List.map_append]
      rfl

lemma stripChunks_sublist (c : ℕ) (hc : 2 ≤ c) :
    ∀ (vs cur : List (V4 ℚ)), 1 ≤ cur.length → cur.length < c →
      2 ≤ cur.length + vs.length →
      (cur ++ vs).Sublist (stripChunks c cur vs).flatten := by
  intro vs
  induction vs with
  | nil =>
    intro cur h1 h2 h3
    rw [stripChunks, if_pos (by simpa using h3)]
    simp
  | cons v rest ih =>
    intro cur h1 h2 h3
    rw [stripChunks]
    by_cases hseam : cur.length + 1 = c
    · rw [if_pos hseam]
      have hsplit : cur ++ v :: rest = (cur ++ [v]) ++ rest := by simp
      rw [hsplit]
      rw [List.flatten_cons]
      refine List.Sublist.append (List.Sublist.refl (cur ++ [v])) ?_
      cases rest with
      | nil =>
        rw [stripChunks, if_neg (by simp)]
        exact List.Sublist.refl []
      | cons r0 rest' =>
        have hsub := ih [v] (by simp) (by simp; omega) (by simp; omega)
        exact List.Sublist.trans (List.sublist_cons_self v (r0 :: rest')) hsub
    · rw [if_neg hseam]
      have hsplit : cur ++ v :: rest = (cur ++ [v]) ++ rest := by simp
      rw [hsplit]
      exact ih (cur ++ [v]) (by simp) (by simp; omega) (by simp; omega)

/-- Claim C6 (amended: across an automatic flush the boundary vertex is drawn
twice - once ending the flushed generation and once re-seeding the next - so
the concatenation of the drawn strips equals the input sequence with the
vertex at each flush boundary duplicated, rather than the bare input
sequence; no vertex is lost: the input sequence is an order-preserving
subsequence of the drawn concatenation).  Stated for any capacity at least
2; the buffer's constructor fixes the capacity to 4096. -/
theorem vertex_autoflush_no_vertex_lost (c : ℕ) (hc : 2 ≤ c) (vs : List (V4 ℚ))
    (col : V4 ℚ) (lm : Bool) (dr : List (List (V4 ℚ))) :
    (vbFlush (vbEnd (feedVertices (midStrip c [] col lm dr) vs) true) true).drawn =
        dr ++ stripChunks c [] vs ∧
    (2 ≤ vs.length → vs.Sublist (stripChunks c [] vs).flatten) ∧
    vbInit.capacity = 4096 := by
  refine ⟨?_, ?_, rfl⟩
  · have h := feed_strip c hc vs [] col lm dr (by simp; omega)
    simpa using h
  · intro h2
    cases vs with
    | nil => simp at h2
    | cons v rest =>
      rw [stripChunks, if_neg (by simp; omega)]
      have h := stripChunks_sublist c hc rest [v] (by simp) (by simp; omega)
        (by simp at h2 ⊢; omega)
      simpa using h

/-- Witness for the amended C6 at the real capacity 4096 and a concrete
two-vertex strip. -/
theorem vertex_autoflush_no_vertex_lost_witness :
    (vbFlush (vbEnd (feedVertices (midStrip 4096 [] ⟨0, 0, 0, 0⟩ false [])
        [⟨1, 0, 0, 0⟩, ⟨2, 0, 0, 0⟩]) true) true).drawn =
      [] ++ stripChunks 4096 [] [⟨1, 0, 0, 0⟩, ⟨2, 0, 0, 0⟩] ∧
    ([⟨1, 0, 0, 0⟩, ⟨2, 0, 0, 0⟩] : List (V4 ℚ)).Sublist
      (stripChunks 4096 [] [⟨1, 0, 0, 0⟩, ⟨2, 0, 0, 0⟩]).flatten := by
  have h := vertex_autoflush_no_vertex_lost 4096 (by norm_num)
    [⟨1, 0, 0, 0⟩, ⟨2, 0, 0, 0⟩] ⟨0, 0, 0, 0⟩ false []
  exact ⟨h.1, h.2.1 (by norm_num)⟩

lemma stripChunks_replicate (c : ℕ) (r : ℕ) (v : V4 ℚ) :
    ∀ (m : ℕ) (cur : List (V4 ℚ)), cur.length + (m + 1) = c →
      stripChunks c cur (List.replicate (m + 1 + r) v) =
        (cur ++ List.replicate (m + 1) v) :: stripChunks c [v] (List.replicate r v) := by
  intro m
  induction m with
  | zero =>
    intro cur hcur
    rw [show 0 + 1 + r = r + 1 from by omega, List.replicate_succ]
    rw [stripChunks]
    rw [if_pos (by omega)]
    simp
  | succ m ih =>
    intro cur hcur
    rw [show m + 1 + 1 + r = (m + 1 + r) + 1 from by omega, List.replicate_succ]
    rw [stripChunks]
    rw [if_neg (by omega)]
    rw [ih (cur ++ [v]) (by simp; omega)]
    congr 1
    simp only [List.append_assoc, List.singleton_append]
    rw [show List.replicate (m + 1 + 1) v = v :: List.replicate (m + 1) v from rfl]

/-- Counterexample to claim C6 as stated: feeding 4097 vertices of one strip
through the capacity-4096 buffer, the automatic flush re-seeds the next
generation with the just-emitted vertex, so that vertex is drawn twice - the
concatenation of the drawn positions has 4098 entries and is not equal to
the 4097-entry input sequence. -/
theorem vertex_autoflush_concat_counterexample :
    ¬(((vbFlush (vbEnd (feedVertices (vbSetup vbInit false)
          (List.replicate 4097 (⟨1, 2, 3, 1⟩ : V4 ℚ))) true) true).drawn).flatten =
        List.replicate 4097 (⟨1, 2, 3, 1⟩ : V4 ℚ)) := by
  have hsetup : vbSetup vbInit false = midStrip 4096 [] ⟨0, 0, 0, 0⟩ false [] := rfl
  rw [hsetup]
  rw [feed_strip 4096 (by norm_num) _ [] _ _ _ (by simp)]
  simp only [List.map_nil, List.nil_append]
  have hchunks : stripChunks 4096 [] (List.replicate 4097 (⟨1, 2, 3, 1⟩ : V4 ℚ)) =
      [List.replicate 4096 ⟨1, 2, 3, 1⟩, [⟨1, 2, 3, 1⟩, ⟨1, 2, 3, 1⟩]] := by
    have h := stripChunks_replicate 4096 1 ⟨1, 2, 3, 1⟩ 4095 [] (by norm_num)
    rw [show (4095 + 1 + 1 : ℕ) = 4097 from rfl] at h
    rw [h]
    rw [show List.replicate 1 (⟨1, 2, 3, 1⟩ : V4 ℚ) = [⟨1, 2, 3, 1⟩] from rfl]
    rw [stripChunks, if_neg (by norm_num)]
    rw [stripChunks, if_pos (by norm_num)]
    rw [show (4095 + 1 : ℕ) = 4096 from rfl]
    simp only [List.nil_append, List.singleton_append]
  rw [hchunks]
  intro hcon
  have hlen := congrArg List.length hcon
  simp only [List.flatten_cons, List.flatten_nil, List.length_append, List.length_replicate,
    List.length_cons, List.length_nil, List.append_nil] at hlen
  omega
